import Mathlib

set_option maxHeartbeats 1000000
set_option maxRecDepth 8000

/-!
Shallow embedding of the WeiChengTW/Accounting LINE bookkeeping bot (`app.py`).

Conventions used throughout this development:
* Python `datetime` values are modelled by the `DateTime` structure below
  (local time, second precision, exactly the fields the program reads).
* Python integers are `ℕ`/`ℤ`; the only float in the program is the transient
  proportional-share quotient `total_amount * weight / total_weight`, which is
  modelled by exact integer division with the fractional remainders compared by
  their numerators (the exact-rational semantics of the expression).
* Raising `ValueError` is modelled by `Except String`, `return None` by
  `Option`.
* The external collaborators (LINE API roster, display-name resolution, the
  deployment-dependent status text) are fields of an `Env` record; the mutable
  per-conversation state (records table, manual members, settlement payments,
  last-detail-view cache, pending delete slot) is a `ChatState` record that is
  threaded explicitly.
-/

/-- A `datetime.datetime` value as the program uses it: local time, second
precision (`microsecond` is always 0 in the program). -/
structure DateTime where
  year : ℕ
  month : ℕ
  day : ℕ
  hour : ℕ
  minute : ℕ
  second : ℕ
deriving DecidableEq, Repr

/-- Chronological comparison of two timestamps (the order the database uses for
`ORDER BY created_at`: both the Postgres timestamp order and the sqlite ISO-8601
string order coincide with lexicographic field order). -/
def DateTime.cmp (a b : DateTime) : Ordering :=
  (compare a.year b.year).then ((compare a.month b.month).then
    ((compare a.day b.day).then ((compare a.hour b.hour).then
      ((compare a.minute b.minute).then (compare a.second b.second)))))

/-- `a <= b` on timestamps. -/
def DateTime.leb (a b : DateTime) : Bool := a.cmp b ≠ Ordering.gt

/-- `a < b` on timestamps. -/
def DateTime.ltb (a b : DateTime) : Bool := a.cmp b = Ordering.lt

/-- One row of the `records` table. -/
structure Record where
  id : ℕ
  userId : String
  item : String
  amount : ℕ
  recordType : String
  createdAt : DateTime
deriving DecidableEq, Repr

/-- One row of the `settlement_payments` table. -/
structure Payment where
  fromUserId : String
  toName : String
  amount : ℕ
  createdAt : DateTime
deriving DecidableEq, Repr

/-- The `PENDING_DELETE[chat_id]` entry: the stable record id and the display
id captured when the delete command armed the confirmation. -/
structure PendingDelete where
  realId : ℕ
  displayId : ℕ
deriving DecidableEq, Repr

/-! ## Settlement engine numeric core (`allocate_proportional_amounts` and the
inline share / delta / greedy-transfer computation of `build_settlement_text`).

`allocate_proportional_amounts` keys its dict by participant user id; the
caller passes a duplicate-free id list, so we model the weights positionally:
entry `i` of the result is the allocation of the `i`-th weighted id.  The
Python expression `total_amount * weight / total_weight` is float division used
only to floor (`int(raw_value)`) and to rank the fractional remainders
`raw_value - base_value`; with exact arithmetic the floor is
`total_amount * weight / total_weight` in `ℕ` and ranking the remainders is
ranking the numerators `total_amount * weight % total_weight`. -/

/-- `allocate_proportional_amounts(total_amount, weighted_ids, weight_map)`:
floor of each exact proportional share, then the rounding shortfall is handed
out one unit at a time in order of decreasing fractional remainder
(`sorted(..., reverse=True)` is a stable sort, so ties keep the original
iteration order; `List.insertionSort` with a total `≥` relation is also
stable).  Weights are the per-participant paid amounts, already `≥ 0`. -/
def allocate_proportional_amounts (totalAmount : ℕ) (weights : List ℕ) : List ℕ :=
  if totalAmount = 0 ∨ weights = [] then weights.map (fun _ => 0)
  else
    let totalWeight := weights.sum
    if totalWeight = 0 then weights.map (fun _ => 0)
    else
      let base := weights.map (fun w => totalAmount * w / totalWeight)
      let allocated := base.sum
      let remaining := totalAmount - allocated
      let fractionRows := weights.enum.map (fun p => (totalAmount * p.2 % totalWeight, p.1))
      let sortedRows := List.insertionSort (fun a b : ℕ × ℕ => b.1 ≤ a.1) fractionRows
      let bonus := (sortedRows.take remaining).map (fun r => r.2)
      base.enum.map (fun p => p.2 + (if p.1 ∈ bonus then 1 else 0))

/-- The even split of the residual (`member_extra_total`): floor-division base
share plus one extra unit for the first `remainder` participants in roster
order (`build_settlement_text`, the `target_share_map` loop). -/
def target_share (memberExtraTotal n i : ℕ) : ℕ :=
  memberExtraTotal / n + (if i < memberExtraTotal % n then 1 else 0)

/-- All target shares in roster order. -/
def target_shares (memberExtraTotal n : ℕ) : List ℕ :=
  (List.range n).map (target_share memberExtraTotal n)

/-- `available_bank_funds = max(previous_month_balance + total_income, 0)`. -/
def available_bank_funds (prevBalance : ℤ) (totalIncome : ℕ) : ℤ :=
  max (prevBalance + (totalIncome : ℤ)) 0

/-- `bank_reimbursement_total = min(total_expense, available_bank_funds)`;
the result is non-negative, so we read it back as a `ℕ`. -/
def bank_reimbursement_total (totalExpense : ℕ) (prevBalance : ℤ) (totalIncome : ℕ) : ℕ :=
  (min (totalExpense : ℤ) (available_bank_funds prevBalance totalIncome)).toNat

/-- The spec-side formula for the reimbursement pool, written exactly as the
specification words it: `min(total in-range expense, max(0, carried balance +
in-range income))` (used to compare against the code-derived definition). -/
def reimbursement_pool_spec (totalExpense : ℕ) (prevBalance : ℤ) (totalIncome : ℕ) : ℕ :=
  min totalExpense (prevBalance + (totalIncome : ℤ)).toNat

/-- The net payment adjustment of participant `uid`: for every recorded
settlement payment whose payer and resolved payee are both participant ids,
the payer gains `amount` and the payee loses `amount`
(`build_settlement_text`, the `payment_adjust_map` loop; the payee name has
already been resolved to an optional participant id, `none` when
`participant_name_to_id.get` found nothing). -/
def payment_adjust (ids : List String) (payments : List (String × Option String × ℕ))
    (uid : String) : ℤ :=
  (payments.map (fun q =>
    match q.2.1 with
    | some t =>
      if q.1 ∈ ids ∧ t ∈ ids then
        (if q.1 = uid then (q.2.2 : ℤ) else 0) - (if t = uid then (q.2.2 : ℤ) else 0)
      else 0
    | none => 0)).sum

/-- The per-participant net deltas of `build_settlement_text`: for participant
`i`, `(paid - bank withdrawal) - target share + payment adjustment`.  The
caller supplies `bankReimbursementTotal` and `memberExtraTotal` exactly as the
source computes them (`min` with the bank funds, and total expense minus the
pool). -/
def settlement_deltas (participants : List (String × ℕ))
    (bankReimbursementTotal memberExtraTotal : ℕ)
    (payments : List (String × Option String × ℕ)) : List (String × ℤ) :=
  let n := participants.length
  let ids := participants.map (fun p => p.1)
  let bankWithdraw := allocate_proportional_amounts bankReimbursementTotal
    (participants.map (fun p => p.2))
  participants.enum.map (fun p =>
    (p.2.1, (p.2.2 : ℤ) - (bankWithdraw.getD p.1 0 : ℤ)
      - (target_share memberExtraTotal n p.1 : ℤ)
      + payment_adjust ids payments p.2.1))

/-- Participants with positive delta, paired with the owed amount
(`creditors.append([user_id, delta])`). -/
def settlement_creditors (deltas : List (String × ℤ)) : List (String × ℕ) :=
  (deltas.filter (fun p => 0 < p.2)).map (fun p => (p.1, p.2.toNat))

/-- Participants with negative delta, paired with the owed magnitude
(`debtors.append([user_id, -delta])`). -/
def settlement_debtors (deltas : List (String × ℤ)) : List (String × ℕ) :=
  (deltas.filter (fun p => p.2 < 0)).map (fun p => (p.1, (-p.2).toNat))

/-- The greedy two-pointer sweep of `build_settlement_text`: repeatedly pay
`min(creditor_need, debtor_need)` from the current debtor to the current
creditor (recording the transfer when the amount is positive), and advance
whichever side reaches zero.  Transfers are `(from debtor, to creditor,
amount)`. -/
def greedy_transfers : List (String × ℕ) → List (String × ℕ) → List (String × String × ℕ)
  | [], _ => []
  | _ :: _, [] => []
  | (c, cn) :: cs, (d, dn) :: ds =>
    let a := min cn dn
    let rest :=
      if cn - a = 0 then
        if dn - a = 0 then greedy_transfers cs ds
        else greedy_transfers cs ((d, dn - a) :: ds)
      else greedy_transfers ((c, cn - a) :: cs) ds
    if a = 0 then rest else (d, c, a) :: rest
termination_by cs ds => cs.length + ds.length
decreasing_by all_goals (simp only [List.length_cons]; omega)

/-- Total amount received by `x` as a creditor over a transfer list. -/
def recvOf (x : String) (ts : List (String × String × ℕ)) : ℕ :=
  ((ts.filter (fun t => t.2.1 = x)).map (fun t => t.2.2)).sum

/-- Total amount paid by `x` as a debtor over a transfer list. -/
def paidOf (x : String) (ts : List (String × String × ℕ)) : ℕ :=
  ((ts.filter (fun t => t.1 = x)).map (fun t => t.2.2)).sum

/-- `get_previous_month_window`: the reference month of a range spec (year and
month of the first day of the summarised period), and the month immediately
before it.  Returns `((prev_year, prev_month), (ref_year, ref_month))`; the
source returns the two month-start datetimes. -/
inductive RangeSpec where
  | scope (s : String)
  | date (year month day : ℕ)
  | monthYear (year month : ℕ)
  | monthRange (year startMonth endMonth : ℕ)
  | yearExact (year : ℕ)
deriving DecidableEq, Repr

def get_previous_month_window (now : DateTime) (rangeSpec : Option RangeSpec) :
    (ℕ × ℕ) × (ℕ × ℕ) :=
  let ref : ℕ × ℕ :=
    match rangeSpec with
    | some (RangeSpec.monthYear y m) => (y, m)
    | some (RangeSpec.date y m _) => (y, m)
    | some (RangeSpec.monthRange y s _) => (y, s)
    | some (RangeSpec.yearExact y) => (y, 1)
    | _ => (now.year, now.month)
  let prev : ℕ × ℕ := if ref.2 = 1 then (ref.1 - 1, 12) else (ref.1, ref.2 - 1)
  (prev, ref)

/-- Midnight on the first day of a `(year, month)` pair — the datetimes
`get_previous_month_window` actually returns. -/
def window_start (p : ℕ × ℕ) : DateTime := ⟨p.1, p.2, 1, 0, 0, 0⟩

/-! ## Tokenizer / field parsers (`parse_record_message` and friends). -/

/-- Characters stripped by Python `str.strip()` in the inputs that occur here
(ASCII whitespace). -/
def isPySpace (c : Char) : Bool :=
  c == ' ' || c == '\t' || c == '\n' || c == '\r' || c == '\x0b' || c == '\x0c'

/-- Splitting a character list at every separator character (the splitter
underlying `str.split` with explicit separators kept as empty pieces). -/
def splitByAux (p : Char → Bool) : List Char → List Char → List (List Char)
  | [], acc => [acc.reverse]
  | c :: cs, acc =>
    if p c then acc.reverse :: splitByAux p cs [] else splitByAux p cs (c :: acc)

/-- Character-level split of a string at every character satisfying `p`. -/
def String.splitF (s : String) (p : Char → Bool) : List String :=
  (splitByAux p s.data []).map (fun cs => ⟨cs⟩)

/-- Splitting at a (non-empty) separator substring, fuelled by the length of
the text so the recursion is structural. -/
def splitOnAuxF (sep : List Char) : ℕ → List Char → List Char → List (List Char)
  | _, [], acc => [acc.reverse]
  | 0, rest, acc => [acc.reverse ++ rest]
  | fuel + 1, c :: cs, acc =>
    if sep.isPrefixOf (c :: cs) then
      acc.reverse :: splitOnAuxF sep fuel (cs.drop (sep.length - 1)) []
    else splitOnAuxF sep fuel cs (c :: acc)

/-- `str.split(sep)` for a non-empty separator (empty separator degenerates to
the whole string, a case no caller uses). -/
def String.splitOnF (s sep : String) : List String :=
  if sep.data.isEmpty then [s]
  else (splitOnAuxF sep.data s.data.length s.data []).map (fun cs => ⟨cs⟩)

/-- Python `str.strip()`. -/
def String.trimF (s : String) : String :=
  ⟨((s.data.dropWhile isPySpace).reverse.dropWhile isPySpace).reverse⟩

/-- Python `str.startswith`. -/
def String.startsWithF (s p : String) : Bool := p.data.isPrefixOf s.data

/-- Python `str.endswith`. -/
def String.endsWithF (s p : String) : Bool := p.data.reverse.isPrefixOf s.data.reverse

/-- Whether every character of `s` satisfies `p`. -/
def String.allF (s : String) (p : Char → Bool) : Bool := s.data.all p

/-- A field separator of `re.split(r"[\s,，]+", ...)`. -/
def isFieldSep (c : Char) : Bool := c.isWhitespace || c == ',' || c == '，'

/-- Split a payload into non-empty fields (`re.split(r"[\s,，]+", s)` with the
empty fields dropped, as the source's list comprehensions do). -/
def splitFields (s : String) : List String :=
  (s.splitF isFieldSep).filter (fun f => f ≠ "")

/-- `text.splitlines()` followed by the source's strip-and-drop-blank
comprehension. -/
def splitCleanLines (s : String) : List String :=
  ((s.splitOnF "\n").map String.trimF).filter (fun l => l ≠ "")

/-- Digits-only string to number (callers have checked `all isDigit`). -/
def digitsToNat (s : String) : ℕ :=
  s.data.foldl (fun acc c => acc * 10 + (c.toNat - 48)) 0

/-- Python `int(text)`: optional surrounding whitespace, optional sign, a
non-empty run of decimal digits (digit-grouping underscores are not used by
any caller and are not modelled). -/
def parse_int_text (s : String) : Option ℤ :=
  let t := s.trimF
  let (sign, digits) : ℤ × String :=
    if t.startsWithF "-" then (-1, t.drop 1)
    else if t.startsWithF "+" then (1, t.drop 1)
    else (1, t)
  if digits ≠ "" ∧ digits.allF Char.isDigit then some (sign * (digitsToNat digits : ℤ))
  else none

/-- `normalize_record_type` / `normalize_record_type_input` (two identical
copies in the source): the literal synonym sets. -/
def normalize_record_type (t : String) : Except String String :=
  if t = "支出" ∨ t = "expense" ∨ t = "Expense" ∨ t = "EXPENSE" then Except.ok "支出"
  else if t = "收入" ∨ t = "income" ∨ t = "Income" ∨ t = "INCOME" then Except.ok "收入"
  else Except.error "收支類型只能填：支出 或 收入"

/-- Whether `s` is one or two ASCII digits. -/
def is1or2Digits (s : String) : Bool :=
  (s.length = 1 ∨ s.length = 2) ∧ s.allF Char.isDigit

/-- The purely syntactic month/day shape accepted by
`datetime.strptime(date_text, "%m/%d")` (and by the regex
`(\d{1,2})/(\d{1,2})` of `parse_range_spec`): two slash-separated runs of one
or two digits. -/
def mmdd_format (s : String) : Option (ℕ × ℕ) :=
  match s.splitOnF "/" with
  | [ms, ds] =>
    if is1or2Digits ms ∧ is1or2Digits ds then some (digitsToNat ms, digitsToNat ds)
    else none
  | _ => none

/-- Month lengths of the year 1900 — the implicit default year of
`datetime.strptime("%m/%d")`, which is not a leap year, so February has 28
days there. -/
def daysInMonth1900 (m : ℕ) : ℕ :=
  [31, 28, 31, 30, 31, 30, 31, 31, 30, 31, 30, 31].getD (m - 1) 0

/-- Calendar validity as `strptime("%m/%d")` checks it (against year 1900). -/
def valid1900 (m d : ℕ) : Bool :=
  1 ≤ m ∧ m ≤ 12 ∧ 1 ≤ d ∧ d ≤ daysInMonth1900 m

/-- `datetime.strptime(date_text, "%m/%d")`, reduced to the data the program
uses: the month and day when the text matches and denotes a date that exists
in the default year 1900. -/
def strptime_mmdd (s : String) : Option (ℕ × ℕ) :=
  match mmdd_format s with
  | some (m, d) => if valid1900 m d then some (m, d) else none
  | none => none

/-- The proleptic Gregorian leap-year rule (spec-side, for stating what "a
valid date of the current year" means). -/
def isLeapYear (y : ℕ) : Bool := (y % 4 = 0 ∧ y % 100 ≠ 0) ∨ y % 400 = 0

/-- Month lengths of an actual year `y`. -/
def daysInMonth (y m : ℕ) : ℕ :=
  if m = 2 then (if isLeapYear y then 29 else 28) else daysInMonth1900 m

/-- Whether `y-m-d` is a real calendar date (what `datetime(year, month, day)`
checks). -/
def isValidDate (y m d : ℕ) : Bool :=
  1 ≤ m ∧ m ≤ 12 ∧ 1 ≤ d ∧ d ≤ daysInMonth y m

/-- `parse_mmdd_date` / `parse_mmdd_date_input` (two identical copies in the
source): `strptime("%m/%d")`, then a datetime assembled from the current
year and the current time of day. -/
def parse_mmdd_date_input (now : DateTime) (dateText : String) : Except String DateTime :=
  match strptime_mmdd dateText with
  | some (m, d) => Except.ok ⟨now.year, m, d, now.hour, now.minute, now.second⟩
  | none => Except.error "日期格式請用 MM/DD，例如 02/27"

/-- The reserved first-field keywords of `parse_record_message`. -/
def command_keywords : List String :=
  ["刪除", "刪除成員", "修改", "新增成員", "補款", "查詢", "總覽", "算錢", "成員檢查",
   "成員", "餘額", "查餘額", "範圍查詢", "詳細查詢", "明細", "詳細", "格式"]

/-- `normalize_manual_member_name`: strip surrounding whitespace, strip at
most one leading `@` (and whitespace again), require the result non-empty and
at most 30 characters. -/
def normalize_manual_member_name (nameText : String) : Except String String :=
  if nameText = "" then Except.error "新增成員格式：@記帳 新增成員 名稱"
  else
    let memberName := nameText.trimF
    if memberName = "" then Except.error "新增成員格式：@記帳 新增成員 名稱"
    else
      let memberName2 :=
        if memberName.startsWithF "@" then (memberName.drop 1).trimF else memberName
      if memberName2 = "" then Except.error "新增成員格式：@記帳 新增成員 名稱"
      else if 30 < memberName2.length then Except.error "成員名稱請控制在 30 字以內"
      else Except.ok memberName2

/-- Whether `pat` occurs in `s` (Python `pat in s`, for the `"銀行" in item`
bank-marker test; `pat` is non-empty so `splitOn` yields more than one part
exactly when it occurs). -/
def strContains (s pat : String) : Bool := (s.splitOnF pat).length ≠ 1

/-- One parsed line of a record command. -/
structure ParsedRecord where
  item : String
  amount : ℕ
  recordType : String
  recordDatetime : DateTime
  targetMemberName : Option String
deriving DecidableEq, Repr

/-- The single pass of `parse_record_message` over the optional fields of one
line: `@`-prefixed fields become the (unique) target member, everything else
is collected in order as a type-or-date option. -/
def extract_target_and_options (lineNumber : ℕ) (target : Option String)
    (acc : List String) : List String → Except String (Option String × List String)
  | [] => Except.ok (target, acc.reverse)
  | f :: rest =>
    if f.startsWithF "@" then
      match target with
      | some _ => Except.error s!"第{lineNumber}行格式錯誤，@對象只能填一位"
      | none =>
        match normalize_manual_member_name f with
        | Except.ok n => extract_target_and_options lineNumber (some n) acc rest
        | Except.error e => Except.error e
    else extract_target_and_options lineNumber target (f :: acc) rest

/-- The trailing-option disambiguation of `parse_record_message`, applied to
the non-`@` option tokens of one line: zero options keep the defaults, one
option is tried as a record type and reparsed as a date on failure, two
options must be a record type followed by a date, more than two fail. -/
def process_type_or_date_options (now : DateTime) (lineNumber : ℕ) (defaultType : String) :
    List String → Except String (String × DateTime)
  | [] => Except.ok (defaultType, now)
  | [t] =>
    match normalize_record_type t with
    | Except.ok ty => Except.ok (ty, now)
    | Except.error _ =>
      match parse_mmdd_date_input now t with
      | Except.ok dt => Except.ok (defaultType, dt)
      | Except.error e => Except.error e
  | [a, b] =>
    match normalize_record_type a with
    | Except.error e => Except.error e
    | Except.ok ty =>
      match parse_mmdd_date_input now b with
      | Except.error e => Except.error e
      | Except.ok dt => Except.ok (ty, dt)
  | _ =>
    Except.error
      s!"第{lineNumber}行格式錯誤，請用：@記帳 項目 金額 [支出或收入] [MM/DD] [@對象]（分隔可用空白/，/,）"

/-- The body of `parse_record_message`'s per-line loop. -/
def parse_record_line (now : DateTime) (lineNumber : ℕ) (line : String) :
    Except String ParsedRecord :=
  if ¬ line.startsWithF "@記帳" then
    Except.error s!"第{lineNumber}行格式錯誤，請用：@記帳 項目 金額 [支出或收入] [MM/DD] [@對象]"
  else
    let payload := (line.drop ("@記帳".length)).trimF
    let fields := splitFields payload
    if fields.length < 2 ∨ 5 < fields.length then
      Except.error
        s!"第{lineNumber}行格式錯誤，請用：@記帳 項目 金額 [支出或收入] [MM/DD] [@對象]（分隔可用空白/，/,）"
    else
      let item := fields.getD 0 ""
      let amountText := fields.getD 1 ""
      let optionalFields := fields.drop 2
      if item ∈ command_keywords then
        Except.error "多行輸入僅支援記帳格式：@記帳 項目 金額 [支出或收入] [MM/DD] [@對象]（分隔可用空白/，/,）"
      else if item = "" then
        -- unreachable (split fields are non-empty); kept for fidelity
        Except.error s!"第{lineNumber}行格式錯誤，項目不可空白"
      else
        let defaultType := if strContains item "銀行" then "收入" else "支出"
        match extract_target_and_options lineNumber none [] optionalFields with
        | Except.error e => Except.error e
        | Except.ok (targetMemberName, typeOrDateOptions) =>
          match process_type_or_date_options now lineNumber defaultType typeOrDateOptions with
          | Except.error e => Except.error e
          | Except.ok (recordType, recordDatetime) =>
            match parse_int_text amountText with
            | some a =>
              if a ≤ 0 then
                Except.error s!"第{lineNumber}行金額錯誤，金額必須是正整數，例如：@記帳 銀行，50000 收入"
              else Except.ok ⟨item, a.toNat, recordType, recordDatetime, targetMemberName⟩
            | none =>
              Except.error s!"第{lineNumber}行金額錯誤，金額必須是正整數，例如：@記帳 銀行，50000 收入"

/-- The `for line_number, line in enumerate(lines, start=1)` loop: parse each
line in order, propagating the first failure. -/
def parse_record_lines (now : DateTime) : ℕ → List String → Except String (List ParsedRecord)
  | _, [] => Except.ok []
  | k, l :: rest =>
    match parse_record_line now k l with
    | Except.error e => Except.error e
    | Except.ok r =>
      match parse_record_lines now (k + 1) rest with
      | Except.error e => Except.error e
      | Except.ok rs => Except.ok (r :: rs)

/-- `parse_record_message`: `none` when the text is not a record command for
this bot (no lines, or the first line lacks the prefix); otherwise the parsed
records of every line, or the first line's error. -/
def parse_record_message (now : DateTime) (text : String) :
    Option (Except String (List ParsedRecord)) :=
  let lines := splitCleanLines text
  if lines = [] ∨ ¬ (lines.headD "").startsWithF "@記帳" then none
  else some (parse_record_lines now 1 lines)

/-- Parse a positive integer amount (Python `int(...)` plus the `<= 0` check,
both failing with the caller's message). -/
def parse_positive_amount (s err : String) : Except String ℕ :=
  match parse_int_text s with
  | some a => if a ≤ 0 then Except.error err else Except.ok a.toNat
  | none => Except.error err

/-- The result dict of `parse_modify_command`. -/
structure ModifyData where
  recordId : ℕ
  item : Option String
  amount : Option ℕ
  recordType : Option String
  recordDatetime : Option DateTime
deriving DecidableEq, Repr

/-- The `keyword_map` of `parse_modify_command` (`項目`/`金額`/`日期`/`收支`/
`類型`), as the mapped field name. -/
def modify_keyword_map (t : String) : Option String :=
  if t = "項目" then some "item"
  else if t = "金額" then some "amount"
  else if t = "日期" then some "date"
  else if t = "收支" ∨ t = "類型" then some "record_type"
  else none

/-- The keyword-tagged multi-field loop of `parse_modify_command`: consume
`field value` pairs, overwriting previously seen fields. -/
def apply_modify_pairs (now : DateTime) (fmtErr : String) :
    ModifyData → List String → Except String ModifyData
  | md, [] => Except.ok md
  | _, [_] => Except.error fmtErr
  | md, ft :: fv :: rest =>
    match modify_keyword_map ft with
    | none => Except.error fmtErr
    | some "item" => apply_modify_pairs now fmtErr { md with item := some fv } rest
    | some "amount" =>
      match parse_positive_amount fv "金額必須是正整數" with
      | Except.error e => Except.error e
      | Except.ok a => apply_modify_pairs now fmtErr { md with amount := some a } rest
    | some "date" =>
      match parse_mmdd_date_input now fv with
      | Except.error e => Except.error e
      | Except.ok dt => apply_modify_pairs now fmtErr { md with recordDatetime := some dt } rest
    | some _ =>
      match normalize_record_type fv with
      | Except.error e => Except.error e
      | Except.ok ty => apply_modify_pairs now fmtErr { md with recordType := some ty } rest

/-- The body of `parse_modify_command` after the `@記帳 修改` dispatch match,
working on the whole token list (`parts`). -/
def parse_modify_body (now : DateTime) (parts : List String) : Except String ModifyData :=
  let fmtErr := "修改格式：@記帳 修改 ID 項目 金額 [收支] [日期]，或 @記帳 修改 ID [收支或日期]，或 @記帳 修改 ID [項目|金額|日期|收支] 值 ...（可一次改多欄位，分隔可用空白/，/,）"
  if parts.length < 3 then Except.error fmtErr
  else
    match parse_int_text (parts.getD 2 "") with
    | none => Except.error fmtErr
    | some rid0 =>
      if rid0 ≤ 0 then Except.error fmtErr
      else
        let recordId := rid0.toNat
        let remaining0 := parts.drop 3
        if remaining0 = [] then Except.error fmtErr
        else
          let remaining := if remaining0.headD "" = "更新" then remaining0.drop 1 else remaining0
          if remaining = [] then Except.error fmtErr
          else if 2 ≤ remaining.length ∧ (modify_keyword_map (remaining.headD "")).isSome then
            if remaining.length % 2 ≠ 0 then Except.error fmtErr
            else apply_modify_pairs now fmtErr ⟨recordId, none, none, none, none⟩ remaining
          else if remaining.length = 1 then
            let option := remaining.headD ""
            match normalize_record_type option with
            | Except.ok ty => Except.ok ⟨recordId, none, none, some ty, none⟩
            | Except.error _ =>
              match parse_mmdd_date_input now option with
              | Except.ok dt => Except.ok ⟨recordId, none, none, none, some dt⟩
              | Except.error e => Except.error e
          else if parts.length < 5 then Except.error fmtErr
          else if remaining.length < 2 then Except.error fmtErr
          else
            let item := remaining.headD ""
            match parse_positive_amount (remaining.getD 1 "") "金額必須是正整數" with
            | Except.error e => Except.error e
            | Except.ok amount =>
              let optionParts := remaining.drop 2
              if 2 < optionParts.length then Except.error fmtErr
              else
                match optionParts with
                | [] => Except.ok ⟨recordId, some item, some amount, none, none⟩
                | [o] =>
                  match normalize_record_type o with
                  | Except.ok ty => Except.ok ⟨recordId, some item, some amount, some ty, none⟩
                  | Except.error _ =>
                    match parse_mmdd_date_input now o with
                    | Except.ok dt => Except.ok ⟨recordId, some item, some amount, none, some dt⟩
                    | Except.error e => Except.error e
                | [a, b] =>
                  match normalize_record_type a with
                  | Except.error e => Except.error e
                  | Except.ok ty =>
                    match parse_mmdd_date_input now b with
                    | Except.error e => Except.error e
                    | Except.ok dt => Except.ok ⟨recordId, some item, some amount, some ty, some dt⟩
                | _ => Except.error fmtErr

/-- `parse_modify_command`: `None` unless the second token is exactly `修改`
(after which an optional no-op `更新` token may follow the id). -/
def parse_modify_command (now : DateTime) (text : String) : Option (Except String ModifyData) :=
  let parts := splitFields text.trimF
  if parts.length < 2 ∨ parts.getD 0 "" ≠ "@記帳" ∨ parts.getD 1 "" ≠ "修改" then none
  else some (parse_modify_body now parts)

/-- `parse_delete_command`. -/
def parse_delete_command (text : String) : Option (Except String ℕ) :=
  let parts := splitFields text.trimF
  if parts.length ≠ 3 ∨ parts.getD 0 "" ≠ "@記帳" ∨ parts.getD 1 "" ≠ "刪除" then none
  else
    some (match parse_int_text (parts.getD 2 "") with
      | some a =>
        if a ≤ 0 then Except.error "刪除格式：@記帳 刪除 ID（分隔可用空白/，/,）"
        else Except.ok a.toNat
      | none => Except.error "刪除格式：@記帳 刪除 ID（分隔可用空白/，/,）")

/-- `parse_add_member_command`. -/
def parse_add_member_command (text : String) : Option (Except String String) :=
  let parts := splitFields text.trimF
  if parts.length < 3 ∨ parts.getD 0 "" ≠ "@記帳" ∨ parts.getD 1 "" ≠ "新增成員" then none
  else some (normalize_manual_member_name (String.intercalate " " (parts.drop 2)))

/-- `parse_delete_member_command`. -/
def parse_delete_member_command (text : String) : Option (Except String ℕ) :=
  let parts := splitFields text.trimF
  if parts.length ≠ 3 ∨ parts.getD 0 "" ≠ "@記帳" ∨ parts.getD 1 "" ≠ "刪除成員" then none
  else
    some (match parse_int_text (parts.getD 2 "") with
      | some a =>
        if a ≤ 0 then Except.error "刪除成員格式：@記帳 刪除成員 ID"
        else Except.ok a.toNat
      | none => Except.error "刪除成員格式：@記帳 刪除成員 ID")

/-- `parse_settlement_payment_command`. -/
def parse_settlement_payment_command (text : String) : Option (Except String (String × ℕ)) :=
  let parts := splitFields text.trimF
  if parts.length ≠ 4 ∨ parts.getD 0 "" ≠ "@記帳" ∨ parts.getD 1 "" ≠ "補款" then none
  else
    some (match normalize_manual_member_name (parts.getD 2 "") with
      | Except.error e => Except.error e
      | Except.ok toName =>
        match parse_int_text (parts.getD 3 "") with
        | some a =>
          if a ≤ 0 then Except.error "補款格式：@記帳 補款 名稱 金額（金額須為正整數）"
          else Except.ok (toName, a.toNat)
        | none => Except.error "補款格式：@記帳 補款 名稱 金額（金額須為正整數）")

/-! ## Range-spec resolution. -/

/-- The regex `(\d{1,2})月`. -/
def matchMonthToken (t : String) : Option ℕ :=
  if t.endsWithF "月" ∧ is1or2Digits (t.dropRight 1) then some (digitsToNat (t.dropRight 1))
  else none

/-- The regex `(\d{4})(?:年)?`. -/
def matchYearToken (t : String) : Option ℕ :=
  let core := if t.endsWithF "年" then t.dropRight 1 else t
  if core.length = 4 ∧ core.allF Char.isDigit then some (digitsToNat core) else none

/-- The regex `(\d{4})年(\d{1,2})月`. -/
def matchYearMonthToken (t : String) : Option (ℕ × ℕ) :=
  match t.splitOnF "年" with
  | [ys, rest] =>
    if ys.length = 4 ∧ ys.allF Char.isDigit ∧ rest.endsWithF "月" ∧ is1or2Digits (rest.dropRight 1)
    then some (digitsToNat ys, digitsToNat (rest.dropRight 1))
    else none
  | _ => none

/-- `normalize_scope` (`scope_map` lookup with the caller's default for a
missing/empty scope text). -/
def normalize_scope (scopeText : Option String) (defaultScope : String) : Except String String :=
  match scopeText with
  | none => Except.ok defaultScope
  | some t =>
    if t = "" then Except.ok defaultScope
    else if t = "日" ∨ t = "天" then Except.ok "日"
    else if t = "周" ∨ t = "週" then Except.ok "周"
    else if t = "月" then Except.ok "月"
    else if t = "年" then Except.ok "年"
    else if t = "全部" ∨ t = "all" ∨ t = "ALL" then Except.ok "全部"
    else Except.error "範圍只能填：日、周、月、年、全部"

/-- Zero-pad to two digits (`{:02d}`). -/
def pad2 (n : ℕ) : String := if n < 10 then "0" ++ toString n else toString n

/-- The `label` value stored in each range-spec dict. -/
def RangeSpec.label : RangeSpec → String
  | RangeSpec.scope s => s
  | RangeSpec.date y m d =>
    let ms := pad2 m
    let ds := pad2 d
    s!"{y}/{ms}/{ds}"
  | RangeSpec.monthYear y m => s!"{y}年{m}月"
  | RangeSpec.monthRange _ sm em => s!"{sm}月到{em}月"
  | RangeSpec.yearExact y => s!"{y}年"

/-- One step of the two-token loop of `parse_range_spec` (month and year
tokens in either order, later tokens overwriting earlier ones). -/
def range_two_token_step (err : String) (acc : Option ℕ × Option ℕ) (t : String) :
    Except String (Option ℕ × Option ℕ) :=
  match matchMonthToken t with
  | some m => Except.ok (some m, acc.2)
  | none =>
    match matchYearToken t with
    | some y => Except.ok (acc.1, some y)
    | none => Except.error err

/-- `parse_range_spec`. -/
def parse_range_spec (now : DateTime) (rangeParts : List String) (defaultScope : String) :
    Except String RangeSpec :=
  let twoTokenErr := "範圍格式錯誤，可用：日/周/月/年/全部，或 2月、2025、2月 2025年、2/25"
  match rangeParts with
  | [] =>
    match normalize_scope none defaultScope with
    | Except.ok sc => Except.ok (RangeSpec.scope sc)
    | Except.error e => Except.error e
  | [token] =>
    match mmdd_format token with
    | some (m, d) =>
      if isValidDate now.year m d then Except.ok (RangeSpec.date now.year m d)
      else Except.error "日期格式請用 M/D 或 MM/DD，且需是有效日期"
    | none =>
      match matchMonthToken token with
      | some m =>
        if m < 1 ∨ 12 < m then Except.error "月份需介於 1 到 12"
        else Except.ok (RangeSpec.monthYear now.year m)
      | none =>
        match matchYearToken token with
        | some y => Except.ok (RangeSpec.yearExact y)
        | none =>
          match normalize_scope (some token) defaultScope with
          | Except.ok sc => Except.ok (RangeSpec.scope sc)
          | Except.error e => Except.error e
  | [a, b] =>
    match range_two_token_step twoTokenErr (none, none) a with
    | Except.error e => Except.error e
    | Except.ok acc1 =>
      match range_two_token_step twoTokenErr acc1 b with
      | Except.error e => Except.error e
      | Except.ok acc2 =>
        -- Python `if not month or not year` treats a parsed 0 as missing too
        if acc2.1.getD 0 = 0 ∨ acc2.2.getD 0 = 0 then Except.error twoTokenErr
        else
          let month := acc2.1.getD 0
          let year := acc2.2.getD 0
          if month < 1 ∨ 12 < month then Except.error "月份需介於 1 到 12"
          else Except.ok (RangeSpec.monthYear year month)
  | _ => Except.error "範圍參數過多"

/-- `parse_month_range_spec` (`M月到N月` within the current year). -/
def parse_month_range_spec (now : DateTime) (rangeParts : List String) :
    Except String RangeSpec :=
  let fmtErr := "範圍查詢格式：@記帳 範圍查詢 起始月到結束月（例如：2月到5月）"
  if rangeParts = [] then Except.error fmtErr
  else
    let joined := String.join rangeParts
    match joined.splitOnF "月到" with
    | [a, b] =>
      if is1or2Digits a ∧ b.endsWithF "月" ∧ is1or2Digits (b.dropRight 1) then
        let sm := digitsToNat a
        let em := digitsToNat (b.dropRight 1)
        if sm < 1 ∨ 12 < sm ∨ em < 1 ∨ 12 < em then Except.error "月份需介於 1 到 12"
        else if em < sm then Except.error "起始月不可大於結束月"
        else Except.ok (RangeSpec.monthRange now.year sm em)
      else Except.error fmtErr
    | _ => Except.error fmtErr

/-- One step of the two-token loop of `parse_settlement_month_spec`. -/
def settlement_two_token_step (err : String) (acc : Option ℕ × Option ℕ) (t : String) :
    Except String (Option ℕ × Option ℕ) :=
  match matchMonthToken t with
  | some m => Except.ok (some m, acc.2)
  | none =>
    match matchYearToken t with
    | some y => Except.ok (acc.1, some y)
    | none => Except.error err

/-- `parse_settlement_month_spec` (`算錢` month argument; defaults to the
current month). -/
def parse_settlement_month_spec (now : DateTime) (rangeParts : List String) :
    Except String RangeSpec :=
  let fmtErr := "算錢格式：@記帳 算錢 [月份]，例如：@記帳 算錢 4月"
  match rangeParts with
  | [] => Except.ok (RangeSpec.monthYear now.year now.month)
  | [token] =>
    if is1or2Digits token then
      let m := digitsToNat token
      if m < 1 ∨ 12 < m then Except.error "月份需介於 1 到 12"
      else Except.ok (RangeSpec.monthYear now.year m)
    else
      match matchMonthToken token with
      | some m =>
        if m < 1 ∨ 12 < m then Except.error "月份需介於 1 到 12"
        else Except.ok (RangeSpec.monthYear now.year m)
      | none =>
        match matchYearMonthToken token with
        | some (y, m) =>
          if m < 1 ∨ 12 < m then Except.error "月份需介於 1 到 12"
          else Except.ok (RangeSpec.monthYear y m)
        | none => Except.error fmtErr
  | [a, b] =>
    match settlement_two_token_step fmtErr (none, none) a with
    | Except.error e => Except.error e
    | Except.ok acc1 =>
      match settlement_two_token_step fmtErr acc1 b with
      | Except.error e => Except.error e
      | Except.ok acc2 =>
        -- here the source tests `is None`, not falsiness
        match acc2.1 with
        | none => Except.error fmtErr
        | some month =>
          let year := acc2.2.getD now.year
          if month < 1 ∨ 12 < month then Except.error "月份需介於 1 到 12"
          else Except.ok (RangeSpec.monthYear year month)
  | _ => Except.error fmtErr

/-- The routed query kinds returned by `parse_query_command`. -/
inductive QueryCmd where
  | summary (spec : RangeSpec)
  | settlement (spec : RangeSpec)
  | memberCheck
  | detail (spec : RangeSpec)
  | status
deriving DecidableEq, Repr

/-- `parse_query_command`. -/
def parse_query_command (now : DateTime) (text : String) : Option (Except String QueryCmd) :=
  let parts := splitFields text.trimF
  if parts = [] ∨ parts.getD 0 "" ≠ "@記帳" then none
  else if 2 ≤ parts.length ∧ parts.getD 1 "" ∈ ["查詢", "總覽", "餘額", "查餘額"] then
    some ((parse_range_spec now (parts.drop 2) "月").map QueryCmd.summary)
  else if 2 ≤ parts.length ∧ parts.getD 1 "" ∈ ["算錢", "分帳"] then
    some ((parse_settlement_month_spec now (parts.drop 2)).map QueryCmd.settlement)
  else if 2 ≤ parts.length ∧ (parts.getD 1 "" = "成員檢查" ∨ parts.getD 1 "" = "成員") then
    some (Except.ok QueryCmd.memberCheck)
  else if 2 ≤ parts.length ∧ parts.getD 1 "" = "範圍查詢" then
    some ((parse_month_range_spec now (parts.drop 2)).map QueryCmd.summary)
  else if 2 ≤ parts.length ∧ parts.getD 1 "" ∈ ["詳細查詢", "明細", "詳細"] then
    some ((parse_range_spec now (parts.drop 2) "月").map QueryCmd.detail)
  else if 2 ≤ parts.length ∧ parts.getD 1 "" ∈ ["狀態", "status", "STATUS"] then
    some (Except.ok QueryCmd.status)
  else none

/-! ## Calendar arithmetic (for `timedelta` day arithmetic and `weekday()`),
using the standard civil-from-days / days-from-civil algorithms on `ℤ` (whose
`/` truncates toward zero, as the algorithm expects for its era shifts). -/

/-- Days since 1970-01-01 of a civil date. -/
def days_from_civil (y m d : ℤ) : ℤ :=
  let y2 := if m ≤ 2 then y - 1 else y
  let era := (if 0 ≤ y2 then y2 else y2 - 399) / 400
  let yoe := y2 - era * 400
  let doy := (153 * (if 2 < m then m - 3 else m + 9) + 2) / 5 + d - 1
  let doe := yoe * 365 + yoe / 4 - yoe / 100 + doy
  era * 146097 + doe - 719468

/-- Civil date of a days-since-1970 count. -/
def civil_from_days (z0 : ℤ) : ℤ × ℤ × ℤ :=
  let z := z0 + 719468
  let era := (if 0 ≤ z then z else z - 146096) / 146097
  let doe := z - era * 146097
  let yoe := (doe - doe / 1460 + doe / 36524 - doe / 146096) / 365
  let y := yoe + era * 400
  let doy := doe - (365 * yoe + yoe / 4 - yoe / 100)
  let mp := (5 * doy + 2) / 153
  let d := doy - (153 * mp + 2) / 5 + 1
  let m := if mp < 10 then mp + 3 else mp - 9
  (if m ≤ 2 then y + 1 else y, m, d)

/-- `datetime.weekday()`: Monday = 0. -/
def pyWeekday (t : DateTime) : ℤ :=
  (days_from_civil t.year t.month t.day + 3) % 7

/-- `t + timedelta(days=n)` (time of day is preserved). -/
def dateAddDays (t : DateTime) (n : ℤ) : DateTime :=
  let c := civil_from_days (days_from_civil t.year t.month t.day + n)
  ⟨c.1.toNat, c.2.1.toNat, c.2.2.toNat, t.hour, t.minute, t.second⟩

/-- `get_scope_start_datetime`. -/
def get_scope_start_datetime (now : DateTime) (scope : String) : Option DateTime :=
  if scope = "全部" then none
  else if scope = "日" then some ⟨now.year, now.month, now.day, 0, 0, 0⟩
  else if scope = "周" then
    let weekStart := dateAddDays now (-(pyWeekday now))
    some ⟨weekStart.year, weekStart.month, weekStart.day, 0, 0, 0⟩
  else if scope = "月" then some ⟨now.year, now.month, 1, 0, 0, 0⟩
  else if scope = "年" then some ⟨now.year, 1, 1, 0, 0, 0⟩
  else none

/-- `get_range_start_end`: the half-open `[start, end)` window of a resolved
range spec (`none` bounds are unbounded). -/
def get_range_start_end (now : DateTime) (spec : RangeSpec) :
    Option DateTime × Option DateTime :=
  match spec with
  | RangeSpec.scope sc => (get_scope_start_datetime now sc, none)
  | RangeSpec.monthYear y m =>
    let e := if m = 12 then (⟨y + 1, 1, 1, 0, 0, 0⟩ : DateTime) else ⟨y, m + 1, 1, 0, 0, 0⟩
    (some ⟨y, m, 1, 0, 0, 0⟩, some e)
  | RangeSpec.date y m d =>
    let s : DateTime := ⟨y, m, d, 0, 0, 0⟩
    (some s, some (dateAddDays s 1))
  | RangeSpec.monthRange y sm em =>
    let e := if em = 12 then (⟨y + 1, 1, 1, 0, 0, 0⟩ : DateTime) else ⟨y, em + 1, 1, 0, 0, 0⟩
    (some ⟨y, sm, 1, 0, 0, 0⟩, some e)
  | RangeSpec.yearExact y => (some ⟨y, 1, 1, 0, 0, 0⟩, some ⟨y + 1, 1, 1, 0, 0, 0⟩)

/-- Whether a timestamp lies in the half-open window
(`created_at >= start AND created_at < end`). -/
def inRange (startOpt endOpt : Option DateTime) (t : DateTime) : Bool :=
  (match startOpt with
   | none => true
   | some s => DateTime.leb s t) &&
  (match endOpt with
   | none => true
   | some e => DateTime.ltb t e)

/-! ## Record-store read layer (the SQL queries, over an explicit record
list). -/

/-- The records of one conversation that fall in a window. -/
def filter_range (records : List Record) (startOpt endOpt : Option DateTime) : List Record :=
  records.filter (fun r => inRange startOpt endOpt r.createdAt)

/-- `ORDER BY created_at DESC, id DESC` (the key is injective on a table with
unique ids, so any sort yields the SQL order; insertion sort is also stable). -/
def newer_or_equal (a b : Record) : Prop :=
  DateTime.ltb b.createdAt a.createdAt ∨ (a.createdAt = b.createdAt ∧ b.id ≤ a.id)

instance : DecidableRel newer_or_equal := fun a b => by
  unfold newer_or_equal; infer_instance

/-- Records sorted most-recent first. -/
def sort_records_desc (records : List Record) : List Record :=
  List.insertionSort newer_or_equal records

/-- `SELECT ... WHERE id = record_id` (`get_record_by_id`); ids are unique, so
the first hit is the row. -/
def get_record_by_id (records : List Record) (recordId : ℕ) : Option Record :=
  records.find? (fun r => r.id = recordId)

/-- `get_record_by_display_id`: the `display_id`-th most recent record
(`LIMIT 1 OFFSET display_id - 1`); display ids are 1-based and non-positive
ids resolve to nothing. -/
def get_record_by_display_id (records : List Record) (displayId : ℕ) : Option Record :=
  if displayId = 0 then none
  else (sort_records_desc records).get? (displayId - 1)

/-- `DELETE FROM records WHERE id = ?`: the surviving rows and the deleted row
count (`cur.rowcount`). -/
def delete_record_by_id (records : List Record) (recordId : ℕ) : List Record × ℕ :=
  (records.filter (fun r => r.id ≠ recordId),
   (records.filter (fun r => r.id = recordId)).length)

/-- `UPDATE records SET ... WHERE id = ?`: the updated rows and the matched
row count. -/
def update_record_by_id (records : List Record) (recordId : ℕ) (item : String)
    (amount : ℕ) (recordType : String) (createdAt : DateTime) : List Record × ℕ :=
  (records.map (fun r =>
     if r.id = recordId then Record.mk r.id r.userId item amount recordType createdAt
     else r),
   (records.filter (fun r => r.id = recordId)).length)

/-- Keep the first occurrence of every element (the `seen`-set loops of the
source). -/
def firstOccurrences : List String → List String
  | [] => []
  | a :: rest => a :: firstOccurrences (rest.filter (fun x => x ≠ a))
termination_by l => l.length
decreasing_by
  simp only [List.length_cons]
  exact Nat.lt_succ_of_le (List.length_filter_le _ _)

/-- Sum of amounts of the records of one type in a list
(`COALESCE(SUM(amount), 0) ... AND record_type = t`). -/
def total_of_type (records : List Record) (t : String) : ℕ :=
  ((records.filter (fun r => r.recordType = t)).map (fun r => r.amount)).sum

/-- `get_expense_by_user` / the per-user rows of `get_balance_summary`:
expense sums grouped by contributor, largest first. -/
def paid_by_user (records : List Record) : List (String × ℕ) :=
  let ex := records.filter (fun r => r.recordType = "支出")
  let ids := firstOccurrences (ex.map (fun r => r.userId))
  let pairs := ids.map (fun u => (u, ((ex.filter (fun r => r.userId = u)).map (fun r => r.amount)).sum))
  List.insertionSort (fun a b : String × ℕ => b.2 ≤ a.2) pairs

/-- `get_balance_for_window`: income minus expense over a window. -/
def get_balance_for_window (records : List Record) (startOpt endOpt : Option DateTime) : ℤ :=
  let recs := filter_range records startOpt endOpt
  (total_of_type recs "收入" : ℤ) - (total_of_type recs "支出" : ℤ)

/-! ## Environment and per-conversation state.

The LINE transport, roster lookup and profile lookup are external
collaborators; they enter as fields of `Env`.  `ChatState` is the mutable
state the program keeps for one conversation (the database tables restricted
to this `chat_id`, plus the two global dicts `LAST_DETAIL_VIEW` and
`PENDING_DELETE`). -/

structure Env where
  now : DateTime
  senderUserId : String
  /-- raw `get_group_member_ids`/`get_room_member_ids` result -/
  apiMemberIds : List String
  apiErrorMessage : Option String
  botUserId : Option String
  /-- `get_*_profile(...).display_name`, with the `LineBotApiError` fallback
  `format_user_id` folded in (external lookup) -/
  displayNameOf : String → String
  /-- `build_storage_status_text` (deployment environment, out of core scope) -/
  statusText : String
  /-- the `with_storage_warning` suffix, present when `USING_EPHEMERAL_SQLITE` -/
  ephemeralWarning : Option String

structure ChatState where
  records : List Record
  /-- next `AUTOINCREMENT` id -/
  nextRecordId : ℕ
  /-- `manual_members` rows, most recently (re-)created first -/
  manualMembers : List String
  /-- `settlement_payments` rows in insertion order -/
  payments : List Payment
  /-- `LAST_DETAIL_VIEW[chat_id]` -/
  lastDetailView : Option (List ℕ)
  /-- `PENDING_DELETE[chat_id]` -/
  pendingDelete : Option PendingDelete
deriving Repr

/-- `with_storage_warning`. -/
def with_storage_warning (env : Env) (text : String) : String :=
  match env.ephemeralWarning with
  | none => text
  | some w => text ++ "\n\n" ++ w

/-- `resolve_display_name` (the two API branches and their error fallback are
`env.displayNameOf`). -/
def resolve_display_name (env : Env) (userId : String) : String :=
  if userId = "" ∨ userId = "unknown" then "未知使用者"
  else if userId.startsWithF "__manual_" then userId.drop 9
  else if userId.startsWithF "__untracked_" then
    let last := (userId.splitOnF "_").getLastD ""
    s!"未記帳成員{last}"
  else env.displayNameOf userId

/-- `get_settlement_display_name`. -/
def get_settlement_display_name (env : Env) (userId : String) : String :=
  if userId.startsWithF "__manual_" then userId.drop 9
  else if userId.startsWithF "__untracked_" then
    let last := (userId.splitOnF "_").getLastD ""
    s!"未記帳成員{last}"
  else resolve_display_name env userId

/-- The deduplicated roster of `get_chat_participant_sources`
(`merged_member_ids`; the conversation is modelled as a group chat). -/
def merged_member_ids (env : Env) : List String :=
  firstOccurrences (env.apiMemberIds.filter (fun u => u ≠ ""))

/-- `save_manual_member`: normalize (again), then upsert; the refreshed
`created_at` moves the row to the front of the `ORDER BY created_at DESC`
listing. -/
def save_manual_member (members : List String) (memberName : String) :
    Except String (String × List String) :=
  match normalize_manual_member_name memberName with
  | Except.error e => Except.error e
  | Except.ok n => Except.ok (n, n :: members.filter (fun x => x ≠ n))

/-- `delete_manual_member`: surviving rows and deleted count. -/
def delete_manual_member (members : List String) (memberName : String) :
    Except String (List String × ℕ) :=
  match normalize_manual_member_name memberName with
  | Except.error e => Except.error e
  | Except.ok n => Except.ok (members.filter (fun x => x ≠ n), (members.filter (fun x => x = n)).length)

/-- `get_record_by_last_detail_id`: resolve a display id through the cached
ids of the last detail listing (`LAST_DETAIL_VIEW.get(chat_id) or []`). -/
def get_record_by_last_detail_id (s : ChatState) (displayId : ℕ) : Option Record :=
  if displayId = 0 then none
  else
    let detailRecordIds := s.lastDetailView.getD []
    if detailRecordIds.length < displayId then none
    else get_record_by_id s.records (detailRecordIds.getD (displayId - 1) 0)

/-- The two-step resolution used by both the delete and the modify branch of
`handle_message`: the cached listing first, then the fresh
most-recent-first resolution. -/
def resolve_record_for_edit (s : ChatState) (displayId : ℕ) : Option Record :=
  match get_record_by_last_detail_id s displayId with
  | some r => some r
  | none => get_record_by_display_id s.records displayId

/-- `strftime("%Y/%m/%d")`. -/
def strfDate (t : DateTime) : String :=
  let y := t.year
  let ms := pad2 t.month
  let ds := pad2 t.day
  s!"{y}/{ms}/{ds}"

/-- `format_record_detail_for_delete`. -/
def format_record_detail_for_delete (displayId : ℕ) (r : Record) : String :=
  let createdAtText := strfDate r.createdAt
  let item := r.item
  let amount := r.amount
  let recordType := r.recordType
  s!"即將刪除以下紀錄：\nID：{displayId}\n日期：{createdAtText}\n類型：{recordType}\n項目：{item}\n金額：{amount}\n請回覆「確認」後刪除"

/-- `get_settlement_payments`: the recorded payments of the window, oldest
first. -/
def get_settlement_payments (payments : List Payment) (now : DateTime) (spec : RangeSpec) :
    List Payment :=
  let se := get_range_start_end now spec
  List.insertionSort (fun a b : Payment => a.createdAt.leb b.createdAt = true)
    (payments.filter (fun p => inRange se.1 se.2 p.createdAt))

/-- `get_detailed_records` (the unused `display_id` subquery column of the SQL
row is not modelled; the caller displays the enumeration index instead). -/
def get_detailed_records (records : List Record) (now : DateTime) (spec : RangeSpec) :
    List Record :=
  let se := get_range_start_end now spec
  (sort_records_desc (filter_range records se.1 se.2)).take 30

/-- Number each element (`enumerate(..., start=i)`) into reply lines. -/
def enumerate_lines {α : Type} (f : ℕ → α → String) : ℕ → List α → List String
  | _, [] => []
  | i, x :: xs => f i x :: enumerate_lines f (i + 1) xs

/-- The per-record body of `build_detail_text`'s loop, threading the
`shown_year` header state. -/
def detail_lines (env : Env) (useMonthDay : Bool) (total : ℕ) :
    ℕ → Option ℕ → List Record → List String
  | _, _, [] => []
  | idx, shownYear, r :: rest =>
    let dt := r.createdAt
    let yearHeader : List String :=
      if useMonthDay ∧ shownYear ≠ some dt.year then
        let y := dt.year
        [s!"【{y}】"]
      else []
    let shownYear2 := if useMonthDay then some dt.year else shownYear
    let createdAtText :=
      if useMonthDay then
        let ms := pad2 dt.month
        let ds := pad2 dt.day
        s!"{ms}/{ds}"
      else strfDate dt
    let displayName := resolve_display_name env r.userId
    let item := r.item
    let amount := r.amount
    yearHeader ++
      [s!"ID：{idx}　", s!"日期：{createdAtText}", s!"項目：{item}", s!"金額：{amount}",
       s!"登記人：{displayName}"] ++
      (if idx < total then ["-"] else []) ++
      detail_lines env useMonthDay total (idx + 1) shownYear2 rest

/-- `build_detail_text`: the reply and the new `LAST_DETAIL_VIEW` cache value
(`none` means the key is popped). -/
def build_detail_text (env : Env) (s : ChatState) (spec : RangeSpec) :
    String × Option (List ℕ) :=
  let rows := get_detailed_records s.records env.now spec
  let scope := match spec with | RangeSpec.scope sc => sc | _ => "全部"
  let label := spec.label
  let header := s!"記帳詳細（{label}）"
  if rows = [] then (String.intercalate "\n" [header, "該範圍尚無紀錄"], none)
  else
    let useMonthDay := scope = "日" ∨ scope = "周" ∨ scope = "月"
    let body := detail_lines env useMonthDay rows.length 1 none rows
    (String.intercalate "\n" (header :: body), some (rows.map (fun r => r.id)))

/-- `build_summary_text`. -/
def build_summary_text (env : Env) (s : ChatState) (spec : RangeSpec) : String :=
  let se := get_range_start_end env.now spec
  let recs := filter_range s.records se.1 se.2
  let totalExpense := total_of_type recs "支出"
  let totalIncome := total_of_type recs "收入"
  let paidByUserRows := paid_by_user recs
  let w := get_previous_month_window env.now (some spec)
  let previousMonthBalance :=
    get_balance_for_window s.records (some (window_start w.1)) (some (window_start w.2))
  let balance := previousMonthBalance + (totalIncome : ℤ) - (totalExpense : ℤ)
  let isMonthlyView :=
    match spec with
    | RangeSpec.monthYear _ _ => true
    | RangeSpec.scope sc => sc = "月"
    | _ => false
  let incomeLabel := if isMonthlyView then "本月總收入" else "總收入"
  let expenseLabel := if isMonthlyView then "本月總支出" else "總支出"
  let label := spec.label
  let headerLines :=
    [s!"記帳總覽（{label}）", s!"前月總結餘：{previousMonthBalance}",
     s!"{incomeLabel}：{totalIncome}", s!"{expenseLabel}：{totalExpense}",
     s!"目前餘額：{balance}", "", "當月各付了多少："]
  let bodyLines :=
    if paidByUserRows = [] then ["尚無支出紀錄"]
    else
      enumerate_lines (fun i p =>
        let displayName := resolve_display_name env p.1
        let paid := p.2
        s!"{i}. {displayName}：{paid}") 1 paidByUserRows
  String.intercalate "\n" (headerLines ++ bodyLines)

/-! ## Member-check data and the settlement reply builder. -/

structure SettlementMember where
  userId : String
  displayName : String
  source : String
deriving DecidableEq, Repr

structure MemberCheckData where
  apiMemberIds : List String
  apiErrorMessage : Option String
  settlementMembers : List SettlementMember
  supplementedCount : ℕ
  manualAddedCount : ℕ
deriving Repr

/-- The `append_member` closure of `build_member_check_data`, folded over a
candidate list: skip candidates whose (trimmed) display name is empty or
already seen. -/
def append_members (env : Env) (source : String) :
    List SettlementMember × List String → List String → List SettlementMember × List String
  | acc, [] => acc
  | (ms, seen), uid :: rest =>
    let dn := (get_settlement_display_name env uid).trimF
    if dn = "" ∨ dn ∈ seen then append_members env source (ms, seen) rest
    else append_members env source (ms ++ [⟨uid, dn, source⟩], dn :: seen) rest

/-- `build_member_check_data`. -/
def build_member_check_data (env : Env) (s : ChatState) : MemberCheckData :=
  let merged := merged_member_ids env
  let monthSpec := RangeSpec.scope "月"
  let se := get_range_start_end env.now monthSpec
  let paidUserIds := (paid_by_user (filter_range s.records se.1 se.2)).map (fun p => p.1)
  let notBot := fun (u : String) =>
    match env.botUserId with
    | some b => u != b
    | none => true
  let filteredMemberIds := merged.filter (fun u => u != "" && notBot u)
  let supplementedUserIds :=
    paidUserIds.filter (fun u => u != "" && notBot u && !(filteredMemberIds.contains u))
  let s1 := append_members env "api" ([], []) filteredMemberIds
  let s2 := append_members env "record" s1 supplementedUserIds
  let s3 := append_members env "manual" s2 (s.manualMembers.map (fun n => "__manual_" ++ n))
  { apiMemberIds := env.apiMemberIds
    apiErrorMessage := env.apiErrorMessage
    settlementMembers := s3.1
    supplementedCount := s2.1.length - s1.1.length
    manualAddedCount := s3.1.length - s2.1.length }

/-- `build_member_check_text`. -/
def build_member_check_text (env : Env) (s : ChatState) : String :=
  let data := build_member_check_data env s
  let apiCount := data.apiMemberIds.length
  let memberCount := data.settlementMembers.length
  let supplementedCount := data.supplementedCount
  let manualAddedCount := data.manualAddedCount
  let headerLines :=
    ["成員檢查", s!"API 成員數：{apiCount}", s!"算錢採用成員數（排除機器人）：{memberCount}",
     s!"本期記帳補入成員數：{supplementedCount}", s!"手動補登成員數：{manualAddedCount}"] ++
    (match data.apiErrorMessage with
     | some e => [s!"API 錯誤：{e}", "提示：請確認 LINE 官方帳號已加入群組，且群組成員可被 API 讀取"]
     | none => [])
  if data.settlementMembers = [] then
    String.intercalate "\n" (headerLines ++ ["目前沒有可用成員名單"])
  else
    let memberLines := enumerate_lines (fun i m =>
      let suffix := if m.source = "manual" then "（補登）"
        else if m.source = "record" then "（本期記帳）" else ""
      let dn := m.displayName
      s!"{i}. {dn}{suffix}") 1 data.settlementMembers
    String.intercalate "\n" (headerLines ++ ["", "採用名單："] ++ memberLines)

/-- The missing-payer loop of `build_settlement_text`: contributors who paid
in range but are neither in the roster nor share a display name with a roster
member are appended (threading the evolving display-name set). -/
def missing_payers (env : Env) (botUserId : Option String) (participantIds : List String) :
    List String → List String → List String
  | _, [] => []
  | names, uid :: rest =>
    if uid == "" || (match botUserId with | some b => uid == b | none => false) ||
        participantIds.contains uid then
      missing_payers env botUserId participantIds names rest
    else
      let dn := (get_settlement_display_name env uid).trimF
      if dn ≠ "" ∧ dn ∈ names then missing_payers env botUserId participantIds names rest
      else
        let names2 := if dn ≠ "" then dn :: names else names
        uid :: missing_payers env botUserId participantIds names2 rest

/-- Scan the (remaining) manual members for the first unused non-empty name;
returns it with the unscanned suffix (the `manual_index` cursor). -/
def find_first_unused_manual (used : List String) :
    List String → Option (String × List String)
  | [] => none
  | m :: ms =>
    let c := m.trimF
    if c = "" ∨ c ∈ used then find_first_unused_manual used ms
    else some (c, ms)

/-- The `while True` placeholder search: the first index `k' ≥ k` whose name
`未記帳成員k'` is unused.  `fuel = used.length + 1` always suffices (the
candidate names are pairwise distinct, so at most `used.length` of them can be
taken); the fuel-exhausted branch is unreachable. -/
def fresh_untracked (used : List String) : ℕ → ℕ → ℕ
  | 0, k => k
  | fuel + 1, k =>
    if ("未記帳成員" ++ toString k) ∈ used then fresh_untracked used fuel (k + 1) else k

/-- The padding loop of `build_settlement_text`: up to `missing` synthetic
participants, preferring unused manual members, then numbered placeholders. -/
def pad_participants (manuals used : List String) (nextUntrackedIndex : ℕ)
    (rows : List (String × ℕ)) : ℕ → List (String × ℕ)
  | 0 => rows
  | missing + 1 =>
    match find_first_unused_manual used manuals with
    | some (c, restManuals) =>
      pad_participants restManuals (used ++ [c]) nextUntrackedIndex
        (rows ++ [("__manual_" ++ c, 0)]) missing
    | none =>
      let k := fresh_untracked used (used.length + 1) nextUntrackedIndex
      pad_participants [] (used ++ ["未記帳成員" ++ toString k]) (k + 1)
        (rows ++ [("__untracked_" ++ toString k, 0)]) missing

/-- Python `int(round(a / b))` on the exact rational `a / b`: round half to
even (the float rounding of the transient quotient is modelled exactly). -/
def round_half_even_div (a b : ℕ) : ℕ :=
  if b = 0 then 0
  else
    let q := a / b
    let r := a % b
    if 2 * r < b then q
    else if b < 2 * r then q + 1
    else if q % 2 = 0 then q else q + 1

/-- `build_settlement_text`. -/
def build_settlement_text (env : Env) (s : ChatState) (spec : RangeSpec) : String :=
  let se := get_range_start_end env.now spec
  let paidByUserRows := paid_by_user (filter_range s.records se.1 se.2)
  let paidOfUser := fun uid =>
    (((paidByUserRows.find? (fun p => p.1 = uid)).map (fun p => p.2)).getD 0)
  let totalExpense := (paidByUserRows.map (fun p => p.2)).sum
  let settlementLabel :=
    match spec with
    | RangeSpec.scope sc =>
      if sc = "月" then
        let y := env.now.year
        let m := env.now.month
        s!"{y}年{m}月"
      else spec.label
    | _ => spec.label
  if totalExpense = 0 then
    String.intercalate "\n" [s!"算錢結果（{settlementLabel}）", "該範圍尚無支出紀錄，無需算錢"]
  else
    let totalIncome := total_of_type (filter_range s.records se.1 se.2) "收入"
    let w := get_previous_month_window env.now (some spec)
    let previousMonthBalance :=
      get_balance_for_window s.records (some (window_start w.1)) (some (window_start w.2))
    let bankReimbursementTotal := bank_reimbursement_total totalExpense previousMonthBalance totalIncome
    let memberExtraTotal := totalExpense - bankReimbursementTotal
    let notBot := fun (u : String) =>
      match env.botUserId with
      | some b => u != b
      | none => true
    let participantIds0 := (merged_member_ids env).filter (fun u => u != "" && notBot u)
    let participantDisplayNames :=
      (participantIds0.filter (fun u => u != "")).map (fun u => (resolve_display_name env u).trimF)
    let missing := missing_payers env env.botUserId participantIds0 participantDisplayNames
      (paidByUserRows.map (fun p => p.1))
    let participantUserIds := participantIds0 ++ missing
    if participantUserIds = [] then
      let label := spec.label
      String.intercalate "\n"
        ([s!"算錢結果（{label}）", "目前無法取得群組成員名單，請稍後再試"] ++
         (match env.apiErrorMessage with
          | some e => [s!"API 錯誤：{e}"]
          | none => []) ++
         ["請確認：LINE 官方帳號已加入該群組，且群組成員可被 API 讀取"])
    else
      let participantRows0 := participantUserIds.map (fun u => (u, paidOfUser u))
      let missingCount := max 3 participantRows0.length - participantRows0.length
      let usedNames := participantRows0.map (fun p => (get_settlement_display_name env p.1).trimF)
      let participantRows := pad_participants s.manualMembers usedNames 1 participantRows0 missingCount
      let firstLine := s!"算錢結果（{settlementLabel}）"
      if participantRows = [] then
        String.intercalate "\n" [firstLine, "該範圍尚無支出紀錄，無需算錢"]
      else if (participantRows.map (fun p => p.2)).sum = 0 then
        String.intercalate "\n" [firstLine, "該範圍尚無支出紀錄，無需算錢"]
      else
        let participantCount := participantRows.length
        let perPersonExtra := round_half_even_div memberExtraTotal participantCount
        let participantIds2 := participantRows.map (fun p => p.1)
        let nameIdPairs :=
          (participantIds2.map (fun u => ((get_settlement_display_name env u).trimF, u))).filter
            (fun p => p.1 ≠ "")
        let nameToId := fun nm => ((nameIdPairs.reverse.find? (fun p => p.1 = nm)).map (fun p => p.2))
        let bankWithdraw := allocate_proportional_amounts bankReimbursementTotal
          (participantRows.map (fun p => p.2))
        let paymentRows := get_settlement_payments s.payments env.now spec
        let resolvedPayments := paymentRows.map (fun p =>
          (p.fromUserId,
           (match normalize_manual_member_name p.toName with
            | Except.ok n => nameToId n
            | Except.error _ => none),
           -- the source would raise on a non-normalizable stored name; such a
           -- payee can never match a participant id, so it is modelled as
           -- unresolved
           p.amount))
        let deltas := settlement_deltas participantRows bankReimbursementTotal memberExtraTotal
          resolvedPayments
        let creditors := settlement_creditors deltas
        let debtors := settlement_debtors deltas
        let transfers := greedy_transfers creditors debtors
        let headerLines :=
          [firstLine, s!"前月結餘：{previousMonthBalance}", s!"本月收入：{totalIncome}",
           s!"本期總支出：{totalExpense}", s!"每人最終須補差額：{perPersonExtra}", "",
           "付款明細（代墊）："]
        let paidLines := enumerate_lines (fun i p =>
          let displayName := get_settlement_display_name env p.1
          let paid := p.2
          s!"{i}. {displayName} 已付：{paid}") 1 participantRows
        let bankLines := ["", "可從銀行提領："] ++
          enumerate_lines (fun i p =>
            let displayName := get_settlement_display_name env p.2.1
            let wd := bankWithdraw.getD p.1 0
            s!"{i}. {displayName}：{wd}") 1 participantRows.enum
        let transferLines := ["", "轉帳建議："] ++
          (if memberExtraTotal = 0 then ["本期由銀行資金可完全支應，無需彼此補款"]
           else if transfers = [] then ["目前無需互相轉帳"]
           else enumerate_lines (fun i t =>
             let fromName := get_settlement_display_name env t.1
             let toName := get_settlement_display_name env t.2.1
             let amount := t.2.2
             s!"{i}. {fromName} 要給 {toName}：{amount}") 1 transfers)
        let paymentLines :=
          if paymentRows = [] then []
          else ["", "本月已登記補款："] ++
            enumerate_lines (fun i p =>
              let fromName := get_settlement_display_name env p.fromUserId
              let toName := p.toName
              let amount := p.amount
              s!"{i}. {fromName} 已給 {toName}：{amount}") 1 paymentRows
        String.intercalate "\n" (headerLines ++ paidLines ++ bankLines ++ transferLines ++ paymentLines)

/-! ## The message handler (`handle_message`): pending-delete gate, then the
command router. -/

/-- The `HELP_TEXT` constant. -/
def HELP_TEXT : String :=
  "請用以下格式：\n記帳：\n@記帳 項目 金額 [收支] [日期] [@對象]\n（支援多行輸入）\n" ++
  "記帳預設：支出、當天\n記帳項目含「銀行」會自動視為 \"收入\"\n-\n補款：\n" ++
  "@記帳 補款 名稱 金額\n（表示打指令的人補款給對方，例如：@記帳 補款 @小明 2000）\n -\n" ++
  "刪除：\n@記帳 刪除 ID\n-\n修改：\n@記帳 修改 ID 項目 金額 [收支] [日期]\n" ++
  "@記帳 修改 ID [收支或日期]\n@記帳 修改 ID [項目|金額|日期|收支] 值\n可一次改多欄位：\n" ++
  "@記帳 修改 ID 項目 A 金額 1000 日期 2/20 收支 收入\n-\n查詢：\n@記帳 查詢 [範圍]\n-\n" ++
  "範圍查詢：\n@記帳 範圍查詢 起始月到結束月\n-\n算錢：\n@記帳 算錢 [月份]\n" ++
  "（預設 3 人；月份未填用當月，例如：@記帳 算錢、@記帳 算錢 4、@記帳 算錢 4月）\n-\n" ++
  "詳細查詢：\n@記帳 詳細查詢 [範圍]\n-\n範圍選項：日 / 周 / 月 / 年 / 全部\n" ++
  "可用範圍例子：2/25、2月、2025、2月到5月\n欄位分隔支援：空白 / ， / ,\n查詢預設範圍：月\n" ++
  "算錢固定人數：3\n算錢預設月份：當月\n詳細查詢預設範圍：月\n"

/-- `confirm_keywords` (`handle_message`). -/
def confirm_keywords : List String := ["確定", "確認", "ok", "OK", "Ok", "好"]

/-- The record-insertion loop of `handle_message`: each parsed line is saved
individually (saving the `@target` manual member first when present).  The
`Except.error` outcome carries the state reached when `save_manual_member`
raised mid-loop (the source's uncaught exception: earlier lines stay
inserted, no reply is sent). -/
def insert_parsed_records (env : Env) : ChatState → List ParsedRecord → Except ChatState ChatState
  | s, [] => Except.ok s
  | s, r :: rest =>
    match r.targetMemberName with
    | some target =>
      (match save_manual_member s.manualMembers target with
       | Except.error _ => Except.error s
       | Except.ok (_, mm) =>
         let userId := "__manual_" ++ target
         insert_parsed_records env
           { s with
             manualMembers := mm
             records := s.records ++
               [⟨s.nextRecordId, userId, r.item, r.amount, r.recordType, r.recordDatetime⟩]
             nextRecordId := s.nextRecordId + 1 } rest)
    | none =>
      insert_parsed_records env
        { s with
          records := s.records ++
            [⟨s.nextRecordId, env.senderUserId, r.item, r.amount, r.recordType, r.recordDatetime⟩]
          nextRecordId := s.nextRecordId + 1 } rest

/-- The success reply of the record branch. -/
def record_success_reply (parsed : List ParsedRecord) : String :=
  if parsed.length = 1 then
    let r := parsed.headD ⟨"", 0, "", ⟨0, 0, 0, 0, 0, 0⟩, none⟩
    let item := r.item
    let amount := r.amount
    let recordType := r.recordType
    let base := s!"記帳成功\n類型：{recordType}\n項目：{item}\n金額：{amount}"
    match r.targetMemberName with
    | some target => base ++ s!"\n補登對象：{target}"
    | none => base
  else
    let n := parsed.length
    let summaryLines := enumerate_lines (fun i r =>
      let targetText :=
        match r.targetMemberName with
        | some target => s!"（補登：{target}）"
        | none => ""
      let item := r.item
      let amount := r.amount
      let recordType := r.recordType
      s!"{i}. {recordType} {item} {amount}{targetText}") 1 parsed
    String.intercalate "\n" (s!"記帳成功（共{n}筆）" :: summaryLines)

/-- Everything `handle_message` does after the pending-delete gate: the
router over the already-stripped message text. -/
def route (env : Env) (s : ChatState) (text : String) : ChatState × Option String :=
  if ¬ text.startsWithF "@記帳" then (s, none)
  else if text = "@記帳" ∨ text = "@記帳格式" ∨ text = "@記帳 格式" then (s, some HELP_TEXT)
  else
    match parse_add_member_command text with
    | some (Except.error e) => (s, some e)
    | some (Except.ok addMemberName) =>
      (match save_manual_member s.manualMembers addMemberName with
       | Except.error _ => (s, none)
       | Except.ok (savedName, mm) =>
         ({ s with manualMembers := mm }, some s!"已新增成員：{savedName}"))
    | none =>
    match parse_delete_member_command text with
    | some (Except.error e) => (s, some e)
    | some (Except.ok memberIndex) =>
      let data := build_member_check_data env s
      let members := data.settlementMembers
      if members.length < memberIndex then (s, some s!"找不到成員 ID：{memberIndex}")
      else
        let target := members.getD (memberIndex - 1) ⟨"", "", ""⟩
        let targetName := target.displayName
        if target.source ≠ "manual" then
          (s, some s!"成員 ID：{memberIndex}（{targetName}）不是手動補登成員，無法刪除")
        else
          (match delete_manual_member s.manualMembers targetName with
           | Except.error _ => (s, none)
           | Except.ok (mm, deletedCount) =>
             if deletedCount = 0 then
               ({ s with manualMembers := mm }, some s!"找不到可刪除的補登成員：{targetName}")
             else ({ s with manualMembers := mm }, some s!"已刪除補登成員：{targetName}"))
    | none =>
    match parse_settlement_payment_command text with
    | some (Except.error e) => (s, some e)
    | some (Except.ok sp) =>
      let toName := sp.1
      let amount := sp.2
      (match save_manual_member s.manualMembers toName with
       | Except.error _ => (s, none)
       | Except.ok (_, mm) =>
         let s2 := { s with
           manualMembers := mm
           payments := s.payments ++ [⟨env.senderUserId, toName, amount, env.now⟩] }
         let fromName := resolve_display_name env env.senderUserId
         (s2, some s!"已記錄補款：{fromName} 給 {toName} {amount}"))
    | none =>
    match parse_delete_command text with
    | some (Except.error e) => (s, some e)
    | some (Except.ok deleteRecordId) =>
      (match resolve_record_for_edit s deleteRecordId with
       | none => (s, some s!"找不到可刪除的紀錄 ID：{deleteRecordId}")
       | some record =>
         ({ s with pendingDelete := some ⟨record.id, deleteRecordId⟩ },
          some (format_record_detail_for_delete deleteRecordId record)))
    | none =>
    match parse_modify_command env.now text with
    | some (Except.error e) => (s, some e)
    | some (Except.ok md) =>
      let displayRecordId := md.recordId
      (match resolve_record_for_edit s displayRecordId with
       | none => (s, some s!"找不到可修改的紀錄 ID：{displayRecordId}")
       | some oldRecord =>
         let item := md.item.getD oldRecord.item
         let amount := md.amount.getD oldRecord.amount
         let recordType := md.recordType.getD oldRecord.recordType
         let recordDatetime := md.recordDatetime.getD oldRecord.createdAt
         let ur := update_record_by_id s.records oldRecord.id item amount recordType recordDatetime
         if ur.2 = 0 then
           ({ s with records := ur.1 }, some s!"找不到可修改的紀錄 ID：{displayRecordId}")
         else
           let updatedDateText := strfDate recordDatetime
           ({ s with records := ur.1 },
            some s!"已修改紀錄 ID：{displayRecordId}\n類型：{recordType}\n項目：{item}\n金額：{amount}\n日期：{updatedDateText}"))
    | none =>
    match parse_query_command env.now text with
    | some (Except.error e) => (s, some (e ++ "\n可用範圍例子：2/25、2月、2025、2月到5月"))
    | some (Except.ok q) =>
      (match q with
       | QueryCmd.status => (s, some (with_storage_warning env env.statusText))
       | QueryCmd.memberCheck => (s, some (with_storage_warning env (build_member_check_text env s)))
       | QueryCmd.settlement spec =>
         (s, some (with_storage_warning env (build_settlement_text env s spec)))
       | QueryCmd.summary spec =>
         (s, some (with_storage_warning env (build_summary_text env s spec)))
       | QueryCmd.detail spec =>
         let td := build_detail_text env s spec
         ({ s with lastDetailView := td.2 }, some (with_storage_warning env td.1)))
    | none =>
    match parse_record_message env.now text with
    | none => (s, none)
    | some (Except.error e) => (s, some e)
    | some (Except.ok parsed) =>
      match insert_parsed_records env s parsed with
      | Except.error s2 => (s2, none)
      | Except.ok s2 => (s2, some (with_storage_warning env (record_success_reply parsed)))

/-- `handle_message`: strip the incoming text, run the pending-delete
confirmation gate, then route. -/
def handle_message (env : Env) (s : ChatState) (text0 : String) : ChatState × Option String :=
  let incomingText := text0.trimF
  match s.pendingDelete with
  | some pendingDelete =>
    if incomingText ∈ confirm_keywords then
      let dr := delete_record_by_id s.records pendingDelete.realId
      let displayId := pendingDelete.displayId
      let replyText :=
        if dr.2 = 0 then s!"找不到可刪除的紀錄 ID：{displayId}"
        else s!"已刪除紀錄 ID：{displayId}"
      ({ s with records := dr.1, pendingDelete := none }, some replyText)
    else route env { s with pendingDelete := none } incomingText
  | none => route env s incomingText

/-- The reply of the confirmed-delete branch, as a function of the deleted-row
count and the display id echoed to the user. -/
def confirm_delete_reply (deletedCount displayId : ℕ) : String :=
  if deletedCount = 0 then s!"找不到可刪除的紀錄 ID：{displayId}"
  else s!"已刪除紀錄 ID：{displayId}"

/-! ## Concrete fixtures: a small conversation used to exercise the handler
in the closed corollaries below. -/

/-- A concrete environment (empty roster, identity display names). -/
def envW : Env := ⟨⟨2025, 3, 5, 10, 20, 30⟩, "ua", [], none, none, fun u => u, "st", none⟩

/-- A concrete stored record. -/
def recW : Record := ⟨1, "ua", "午餐", 120, "支出", ⟨2025, 3, 5, 10, 20, 30⟩⟩

/-- A concrete conversation state holding `recW`. -/
def sW : ChatState := ⟨[recW], 2, [], [], none, none⟩

/-- The length invariant of stored manual-member names: non-empty and at most
30 characters. -/
def membersBounded (l : List String) : Prop :=
  ∀ m ∈ l, 1 ≤ m.length ∧ m.length ≤ 30

/-! ## General list lemmas. -/

theorem list_sum_map_add {α β : Type} [AddCommMonoid β] (l : List α) (f g : α → β) :
    (l.map (fun x => f x + g x)).sum = (l.map f).sum + (l.map g).sum := by
  induction l with
  | nil => simp
  | cons a t ih => simp only [List.map_cons, List.sum_cons, ih]; abel

theorem list_sum_map_sub {α : Type} (l : List α) (f g : α → ℤ) :
    (l.map (fun x => f x - g x)).sum = (l.map f).sum - (l.map g).sum := by
  induction l with
  | nil => simp
  | cons a t ih => simp only [List.map_cons, List.sum_cons, ih]; ring

theorem list_sum_map_mul_left {α : Type} (l : List α) (f : α → ℕ) (c : ℕ) :
    (l.map (fun x => c * f x)).sum = c * (l.map f).sum := by
  induction l with
  | nil => simp
  | cons a t ih => simp only [List.map_cons, List.sum_cons, ih, Nat.mul_add]

theorem sum_map_mul_left_self (l : List ℕ) (c : ℕ) :
    (l.map (fun w => c * w)).sum = c * l.sum := by
  induction l with
  | nil => simp
  | cons a t ih => simp only [List.map_cons, List.sum_cons, ih, Nat.mul_add]

theorem list_sum_natCast {α : Type} (l : List α) (f : α → ℕ) :
    (((l.map f).sum : ℕ) : ℤ) = (l.map (fun x => (f x : ℤ))).sum := by
  induction l with
  | nil => simp
  | cons a t ih => simp only [List.map_cons, List.sum_cons, Nat.cast_add, ih]

theorem sum_map_ite_eq (L : List ℕ) (a : ℕ) :
    (L.map (fun i => if i = a then (1 : ℕ) else 0)).sum = L.count a := by
  induction L with
  | nil => simp
  | cons b t ih =>
    rw [List.map_cons, List.sum_cons, ih, List.count_cons]
    by_cases h : b = a <;> (simp [h]; try omega)

theorem sum_map_ite_mem (L S : List ℕ) (hS : S.Nodup) (hcnt : ∀ j ∈ S, L.count j = 1) :
    (L.map (fun i => if i ∈ S then (1 : ℕ) else 0)).sum = S.length := by
  induction S with
  | nil => simp
  | cons a t ih =>
    have ha : a ∉ t := (List.nodup_cons.mp hS).1
    have ht : t.Nodup := (List.nodup_cons.mp hS).2
    have hsplit : (L.map (fun i => if i ∈ a :: t then (1 : ℕ) else 0)).sum
        = (L.map (fun i => (if i = a then (1 : ℕ) else 0) + (if i ∈ t then 1 else 0))).sum := by
      apply congrArg List.sum
      apply List.map_congr_left
      intro i _
      by_cases h1 : i = a
      · subst h1; simp [ha]
      · by_cases h2 : i ∈ t <;> simp [h1, h2]
    rw [hsplit, list_sum_map_add, sum_map_ite_eq, hcnt a (by simp),
      ih ht (fun j hj => hcnt j (by simp [hj]))]
    simp [Nat.add_comm]

theorem sum_getD_range (l : List ℕ) :
    ((List.range l.length).map (fun i => l.getD i 0)).sum = l.sum := by
  induction l with
  | nil => simp
  | cons a t ih =>
    rw [List.length_cons, List.range_succ_eq_map, List.map_cons, List.map_map, List.sum_cons]
    have h1 : ((List.range t.length).map ((fun i => (a :: t).getD i 0) ∘ Nat.succ))
        = (List.range t.length).map (fun i => t.getD i 0) := by
      apply List.map_congr_left
      intro i _
      simp [List.getD_cons_succ]
    rw [h1, ih]
    simp

theorem sum_range_ite_lt (n r : ℕ) :
    ((List.range n).map (fun i => if i < r then (1 : ℕ) else 0)).sum = min r n := by
  induction n with
  | zero => simp
  | succ m ih =>
    rw [List.range_succ, List.map_append, List.sum_append, ih]
    by_cases h : m < r <;> simp [h] <;> omega

theorem sum_map_le_length_mul {α : Type} (l : List α) (f : α → ℕ) (c : ℕ)
    (h : ∀ x ∈ l, f x ≤ c) : (l.map f).sum ≤ l.length * c := by
  induction l with
  | nil => simp
  | cons a t ih =>
    simp only [List.map_cons, List.sum_cons, List.length_cons, Nat.succ_mul]
    have h1 := h a (by simp)
    have h2 := ih (fun x hx => h x (by simp [hx]))
    omega

/-! ## The exact-sum property of the proportional allocation. -/

theorem allocate_length (T : ℕ) (ws : List ℕ) :
    (allocate_proportional_amounts T ws).length = ws.length := by
  by_cases h1 : T = 0 ∨ ws = []
  · simp [allocate_proportional_amounts, h1]
  · by_cases h2 : ws.sum = 0
    · simp [allocate_proportional_amounts, h1, h2]
    · simp [allocate_proportional_amounts, h1, h2, List.enum_length]

theorem allocate_sum (T : ℕ) (ws : List ℕ) (hw : 0 < ws.sum) :
    (allocate_proportional_amounts T ws).sum = T := by
  have hwne : ws ≠ [] := by rintro rfl; simp at hw
  by_cases hT : T = 0
  · subst hT
    unfold allocate_proportional_amounts
    rw [if_pos (Or.inl rfl)]
    induction ws with
    | nil => simp
    | cons a t ih => simp
  · have hW : ws.sum ≠ 0 := Nat.pos_iff_ne_zero.mp hw
    set W := ws.sum with hWdef
    set n := ws.length with hndef
    set base := ws.map (fun w => T * w / W) with hbase
    set allocated := base.sum with halloc
    set remaining := T - allocated with hremdef
    set fractionRows := ws.enum.map (fun p => (T * p.2 % W, p.1)) with hfr
    set sortedRows := List.insertionSort (fun a b : ℕ × ℕ => b.1 ≤ a.1) fractionRows with hsr
    set bonus := (sortedRows.take remaining).map (fun r => r.2) with hbonus
    have hdef : allocate_proportional_amounts T ws
        = base.enum.map (fun p => p.2 + (if p.1 ∈ bonus then 1 else 0)) := by
      unfold allocate_proportional_amounts
      rw [if_neg (by push_neg; exact ⟨hT, hwne⟩), if_neg hW]
    have h2 : fractionRows.map (fun r => r.2) = List.range n := by
      rw [hfr, List.map_map]
      have hc : ((fun r : ℕ × ℕ => r.2) ∘ fun p : ℕ × ℕ => (T * p.2 % W, p.1)) = Prod.fst := rfl
      rw [hc, List.enum_map_fst]
    have hkey : W * allocated + (ws.map (fun w => T * w % W)).sum = T * W := by
      have h6 : (ws.map (fun w => W * (T * w / W) + T * w % W)).sum
          = (ws.map (fun w => T * w)).sum := by
        congr 1
        apply List.map_congr_left
        intro w _
        exact Nat.div_add_mod (T * w) W
      rw [list_sum_map_add, list_sum_map_mul_left, sum_map_mul_left_self] at h6
      rw [← hbase, ← halloc, ← hWdef] at h6
      exact h6
    have hWpos : 0 < W := hw
    have hle : allocated ≤ T := by
      have h4 : W * allocated ≤ T * W := by omega
      rw [mul_comm T W] at h4
      exact Nat.le_of_mul_le_mul_left h4 hWpos
    have hfrsum : remaining * W = (ws.map (fun w => T * w % W)).sum := by
      rw [hremdef, Nat.sub_mul, mul_comm allocated W]
      omega
    have hnpos : 0 < n := by rw [hndef]; exact List.length_pos.mpr hwne
    have hbound : (ws.map (fun w => T * w % W)).sum ≤ n * (W - 1) := by
      rw [hndef]
      exact sum_map_le_length_mul ws _ _ (fun w _ => by
        have := Nat.mod_lt (T * w) hWpos
        omega)
    have hremlt : remaining < n := by
      by_contra hge
      push_neg at hge
      have hmul : n * W ≤ remaining * W := mul_le_mul_right' hge W
      have hnw : n * (W - 1) + n * 1 = n * W := by
        rw [← Nat.mul_add]
        congr 1
        omega
      omega
    have hperm : sortedRows.Perm fractionRows := List.perm_insertionSort _ _
    have hlen : sortedRows.length = n := by
      rw [hperm.length_eq, hfr]
      simp [List.enum_length]
    have hsnd_perm : (sortedRows.map (fun r => r.2)).Perm (List.range n) := by
      rw [← h2]
      exact hperm.map _
    have hsnd_nodup : (sortedRows.map (fun r => r.2)).Nodup :=
      hsnd_perm.nodup_iff.mpr (List.nodup_range n)
    have hbonus_sub : bonus.Sublist (sortedRows.map (fun r => r.2)) := by
      rw [hbonus]
      exact (List.take_sublist _ _).map _
    have hbonus_nodup : bonus.Nodup := hsnd_nodup.sublist hbonus_sub
    have hbonus_mem : ∀ j ∈ bonus, j < n := by
      intro j hj
      have hj2 : j ∈ sortedRows.map (fun r => r.2) := hbonus_sub.subset hj
      have hj3 : j ∈ List.range n := hsnd_perm.mem_iff.mp hj2
      simpa using hj3
    have hbonus_len : bonus.length = remaining := by
      rw [hbonus, List.length_map, List.length_take, hlen]
      omega
    have hbl : base.length = n := by rw [hbase, List.length_map, hndef]
    rw [hdef, list_sum_map_add base.enum (fun p => p.2) (fun p => if p.1 ∈ bonus then 1 else 0)]
    have hA : (base.enum.map (fun p : ℕ × ℕ => p.2)).sum = allocated := by
      rw [List.enum_map_snd]
    have hB : (base.enum.map (fun p : ℕ × ℕ => if p.1 ∈ bonus then (1 : ℕ) else 0)).sum
        = remaining := by
      have hcomp : base.enum.map (fun p : ℕ × ℕ => if p.1 ∈ bonus then (1 : ℕ) else 0)
          = (List.range n).map (fun i => if i ∈ bonus then 1 else 0) := by
        have hc : (fun p : ℕ × ℕ => if p.1 ∈ bonus then (1 : ℕ) else 0)
            = (fun i => if i ∈ bonus then (1 : ℕ) else 0) ∘ Prod.fst := rfl
        rw [hc, ← List.map_map, List.enum_map_fst, hbl]
      rw [hcomp,
        sum_map_ite_mem (List.range n) bonus hbonus_nodup
          (fun j hj => List.count_eq_one_of_mem (List.nodup_range n)
            (List.mem_range.mpr (hbonus_mem j hj))),
        hbonus_len]
    rw [hA, hB]
    omega

/-! ## The greedy transfer sweep nets every creditor and debtor exactly. -/

theorem recvOf_cons (x d c : String) (a : ℕ) (ts : List (String × String × ℕ)) :
    recvOf x ((d, c, a) :: ts) = (if c = x then a else 0) + recvOf x ts := by
  by_cases h : c = x <;> simp [recvOf, List.filter_cons, h]

theorem paidOf_cons (x d c : String) (a : ℕ) (ts : List (String × String × ℕ)) :
    paidOf x ((d, c, a) :: ts) = (if d = x then a else 0) + paidOf x ts := by
  by_cases h : d = x <;> simp [paidOf, List.filter_cons, h]

theorem greedy_transfers_mem : ∀ cs ds (t : String × String × ℕ),
    t ∈ greedy_transfers cs ds →
    t.2.1 ∈ cs.map (fun p => p.1) ∧ t.1 ∈ ds.map (fun p => p.1) := by
  intro cs ds
  induction cs, ds using greedy_transfers.induct with
  | case1 ds => intro t ht; simp [greedy_transfers] at ht
  | case2 hd tl => intro t ht; simp [greedy_transfers] at ht
  | case3 c cn cs d dn ds a ha ih1 ih2 ih3 =>
    intro t ht
    simp only [greedy_transfers] at ht
    rw [if_pos (show min cn dn = 0 from ha)] at ht
    simp only [List.map_cons, List.mem_cons]
    by_cases h1 : cn - min cn dn = 0
    · rw [if_pos h1] at ht
      by_cases h2 : dn - min cn dn = 0
      · rw [if_pos h2] at ht
        rcases ih1 t ht with ⟨m1, m2⟩
        exact ⟨Or.inr m1, Or.inr m2⟩
      · rw [if_neg h2] at ht
        rcases ih2 t ht with ⟨m1, m2⟩
        simp only [List.map_cons, List.mem_cons] at m2
        exact ⟨Or.inr m1, m2⟩
    · rw [if_neg h1] at ht
      rcases ih3 t ht with ⟨m1, m2⟩
      simp only [List.map_cons, List.mem_cons] at m1
      exact ⟨m1, Or.inr m2⟩
  | case4 c cn cs d dn ds a ha ih1 ih2 ih3 =>
    intro t ht
    simp only [greedy_transfers] at ht
    rw [if_neg (show ¬ min cn dn = 0 from ha)] at ht
    simp only [List.map_cons, List.mem_cons]
    rcases List.mem_cons.mp ht with heq | htl
    · subst heq
      exact ⟨Or.inl rfl, Or.inl rfl⟩
    · by_cases h1 : cn - min cn dn = 0
      · rw [if_pos h1] at htl
        by_cases h2 : dn - min cn dn = 0
        · rw [if_pos h2] at htl
          rcases ih1 t htl with ⟨m1, m2⟩
          exact ⟨Or.inr m1, Or.inr m2⟩
        · rw [if_neg h2] at htl
          rcases ih2 t htl with ⟨m1, m2⟩
          simp only [List.map_cons, List.mem_cons] at m2
          exact ⟨Or.inr m1, m2⟩
      · rw [if_neg h1] at htl
        rcases ih3 t htl with ⟨m1, m2⟩
        simp only [List.map_cons, List.mem_cons] at m1
        exact ⟨m1, Or.inr m2⟩

theorem recvOf_eq_zero (cs ds : List (String × ℕ)) (x : String)
    (hx : x ∉ cs.map (fun p => p.1)) : recvOf x (greedy_transfers cs ds) = 0 := by
  unfold recvOf
  have hnil : (greedy_transfers cs ds).filter (fun t => t.2.1 = x) = [] := by
    rw [List.filter_eq_nil_iff]
    intro t ht
    simp only [decide_eq_true_eq]
    intro heq
    exact hx (heq ▸ (greedy_transfers_mem cs ds t ht).1)
  rw [hnil]
  simp

theorem paidOf_eq_zero (cs ds : List (String × ℕ)) (x : String)
    (hx : x ∉ ds.map (fun p => p.1)) : paidOf x (greedy_transfers cs ds) = 0 := by
  unfold paidOf
  have hnil : (greedy_transfers cs ds).filter (fun t => t.1 = x) = [] := by
    rw [List.filter_eq_nil_iff]
    intro t ht
    simp only [decide_eq_true_eq]
    intro heq
    exact hx (heq ▸ (greedy_transfers_mem cs ds t ht).2)
  rw [hnil]
  simp

theorem greedy_recv : ∀ cs ds : List (String × ℕ),
    (∀ p ∈ cs, 0 < p.2) → (∀ p ∈ ds, 0 < p.2) →
    (cs.map (fun p => p.1)).Nodup →
    (cs.map (fun p => p.2)).sum = (ds.map (fun p => p.2)).sum →
    ∀ p ∈ cs, recvOf p.1 (greedy_transfers cs ds) = p.2 := by
  intro cs ds
  induction cs, ds using greedy_transfers.induct with
  | case1 ds => intro _ _ _ _ p hp; simp at hp
  | case2 hd tl =>
    intro hcs _ _ hsum p _
    exfalso
    have h1 := hcs hd (by simp)
    simp only [List.map_cons, List.sum_cons, List.map_nil, List.sum_nil] at hsum
    omega
  | case3 c cn cs d dn ds a ha ih1 ih2 ih3 =>
    intro hcs hds _ _ p _
    exfalso
    have h1 : 0 < cn := hcs (c, cn) (by simp)
    have h2 : 0 < dn := hds (d, dn) (by simp)
    have ha2 : min cn dn = 0 := ha
    omega
  | case4 c cn cs d dn ds a ha ih1 ih2 ih3 =>
    intro hcs hds hnd hsum p hp
    have hcpos : 0 < cn := hcs (c, cn) (by simp)
    have hdpos : 0 < dn := hds (d, dn) (by simp)
    have hcs2 : ∀ q ∈ cs, 0 < q.2 := fun q hq => hcs q (by simp [hq])
    have hds2 : ∀ q ∈ ds, 0 < q.2 := fun q hq => hds q (by simp [hq])
    have hndc : c ∉ cs.map (fun p => p.1) ∧ (cs.map (fun p => p.1)).Nodup := by
      rw [List.map_cons] at hnd
      exact List.nodup_cons.mp hnd
    have hsum2 : cn + (cs.map (fun p => p.2)).sum = dn + (ds.map (fun p => p.2)).sum := by
      simpa using hsum
    rw [greedy_transfers]
    rw [if_neg (show ¬ min cn dn = 0 from ha)]
    by_cases h1 : cn - min cn dn = 0
    · rw [if_pos h1]
      by_cases h2 : dn - min cn dn = 0
      · -- cn = dn: both heads consumed
        rw [if_pos h2]
        have heq : cn = dn := by omega
        rcases List.mem_cons.mp hp with hph | hpt
        · subst hph
          dsimp only
          rw [recvOf_cons, if_pos rfl, recvOf_eq_zero cs ds c hndc.1]
          omega
        · have hne : p.1 ≠ c := by
            intro hcontra
            exact hndc.1 (hcontra ▸ List.mem_map_of_mem (fun q => q.1) hpt)
          rw [recvOf_cons, if_neg (fun hcontra => hne hcontra.symm)]
          rw [ih1 hcs2 hds2 hndc.2 (by omega) p hpt]
          omega
      · -- cn < dn: creditor head consumed, debtor keeps a remainder
        rw [if_neg h2]
        have hlt : cn < dn := by omega
        have hds3 : ∀ q ∈ (d, dn - min cn dn) :: ds, 0 < q.2 := by
          intro q hq
          rcases List.mem_cons.mp hq with hqh | hqt
          · subst hqh; dsimp only; omega
          · exact hds2 q hqt
        have hsum3 : (cs.map (fun p => p.2)).sum
            = (((d, dn - min cn dn) :: ds).map (fun p => p.2)).sum := by
          simp only [List.map_cons, List.sum_cons]
          omega
        rcases List.mem_cons.mp hp with hph | hpt
        · subst hph
          dsimp only
          rw [recvOf_cons, if_pos rfl,
            recvOf_eq_zero cs ((d, dn - min cn dn) :: ds) c hndc.1]
          omega
        · have hne : p.1 ≠ c := by
            intro hcontra
            exact hndc.1 (hcontra ▸ List.mem_map_of_mem (fun q => q.1) hpt)
          rw [recvOf_cons, if_neg (fun hcontra => hne hcontra.symm)]
          rw [ih2 hcs2 hds3 hndc.2 hsum3 p hpt]
          omega
    · -- dn < cn: debtor head consumed, creditor keeps a remainder
      rw [if_neg h1]
      have hlt : dn < cn := by omega
      have hcs3 : ∀ q ∈ (c, cn - min cn dn) :: cs, 0 < q.2 := by
        intro q hq
        rcases List.mem_cons.mp hq with hqh | hqt
        · subst hqh; dsimp only; omega
        · exact hcs2 q hqt
      have hnd3 : (((c, cn - min cn dn) :: cs).map (fun p => p.1)).Nodup := by
        simpa using hnd
      have hsum3 : (((c, cn - min cn dn) :: cs).map (fun p => p.2)).sum
          = (ds.map (fun p => p.2)).sum := by
        simp only [List.map_cons, List.sum_cons]
        omega
      rcases List.mem_cons.mp hp with hph | hpt
      · subst hph
        dsimp only
        rw [recvOf_cons, if_pos rfl]
        have hrec : recvOf c (greedy_transfers ((c, cn - min cn dn) :: cs) ds)
            = cn - min cn dn :=
          ih3 hcs3 hds2 hnd3 hsum3 (c, cn - min cn dn) (by simp)
        rw [hrec]
        omega
      · have hne : p.1 ≠ c := by
          intro hcontra
          exact hndc.1 (hcontra ▸ List.mem_map_of_mem (fun q => q.1) hpt)
        rw [recvOf_cons, if_neg (fun hcontra => hne hcontra.symm)]
        rw [ih3 hcs3 hds2 hnd3 hsum3 p (by simp [hpt])]
        omega

theorem greedy_paid : ∀ cs ds : List (String × ℕ),
    (∀ p ∈ cs, 0 < p.2) → (∀ p ∈ ds, 0 < p.2) →
    (ds.map (fun p => p.1)).Nodup →
    (cs.map (fun p => p.2)).sum = (ds.map (fun p => p.2)).sum →
    ∀ p ∈ ds, paidOf p.1 (greedy_transfers cs ds) = p.2 := by
  intro cs ds
  induction cs, ds using greedy_transfers.induct with
  | case1 ds =>
    intro _ hds _ hsum p hp
    exfalso
    have h1 := hds p hp
    simp only [List.map_nil, List.sum_nil] at hsum
    have h2 : p.2 ≤ (ds.map (fun q => q.2)).sum :=
      List.single_le_sum (fun x _ => Nat.zero_le x) p.2 (List.mem_map_of_mem (fun q => q.2) hp)
    omega
  | case2 hd tl => intro _ _ _ _ p hp; simp at hp
  | case3 c cn cs d dn ds a ha ih1 ih2 ih3 =>
    intro hcs hds _ _ p _
    exfalso
    have h1 : 0 < cn := hcs (c, cn) (by simp)
    have h2 : 0 < dn := hds (d, dn) (by simp)
    have ha2 : min cn dn = 0 := ha
    omega
  | case4 c cn cs d dn ds a ha ih1 ih2 ih3 =>
    intro hcs hds hnd hsum p hp
    have hcpos : 0 < cn := hcs (c, cn) (by simp)
    have hdpos : 0 < dn := hds (d, dn) (by simp)
    have hcs2 : ∀ q ∈ cs, 0 < q.2 := fun q hq => hcs q (by simp [hq])
    have hds2 : ∀ q ∈ ds, 0 < q.2 := fun q hq => hds q (by simp [hq])
    have hndd : d ∉ ds.map (fun p => p.1) ∧ (ds.map (fun p => p.1)).Nodup := by
      rw [List.map_cons] at hnd
      exact List.nodup_cons.mp hnd
    have hsum2 : cn + (cs.map (fun p => p.2)).sum = dn + (ds.map (fun p => p.2)).sum := by
      simpa using hsum
    rw [greedy_transfers]
    rw [if_neg (show ¬ min cn dn = 0 from ha)]
    by_cases h1 : cn - min cn dn = 0
    · rw [if_pos h1]
      by_cases h2 : dn - min cn dn = 0
      · -- cn = dn: both heads consumed
        rw [if_pos h2]
        have heq : cn = dn := by omega
        rcases List.mem_cons.mp hp with hph | hpt
        · subst hph
          dsimp only
          rw [paidOf_cons, if_pos rfl, paidOf_eq_zero cs ds d hndd.1]
          omega
        · have hne : p.1 ≠ d := by
            intro hcontra
            exact hndd.1 (hcontra ▸ List.mem_map_of_mem (fun q => q.1) hpt)
          rw [paidOf_cons, if_neg (fun hcontra => hne hcontra.symm)]
          rw [ih1 hcs2 hds2 hndd.2 (by omega) p hpt]
          omega
      · -- cn < dn: debtor head keeps a remainder
        rw [if_neg h2]
        have hlt : cn < dn := by omega
        have hds3 : ∀ q ∈ (d, dn - min cn dn) :: ds, 0 < q.2 := by
          intro q hq
          rcases List.mem_cons.mp hq with hqh | hqt
          · subst hqh; dsimp only; omega
          · exact hds2 q hqt
        have hnd3 : (((d, dn - min cn dn) :: ds).map (fun p => p.1)).Nodup := by
          simpa using hnd
        have hsum3 : (cs.map (fun p => p.2)).sum
            = (((d, dn - min cn dn) :: ds).map (fun p => p.2)).sum := by
          simp only [List.map_cons, List.sum_cons]
          omega
        rcases List.mem_cons.mp hp with hph | hpt
        · subst hph
          dsimp only
          rw [paidOf_cons, if_pos rfl]
          have hrec : paidOf d (greedy_transfers cs ((d, dn - min cn dn) :: ds))
              = dn - min cn dn :=
            ih2 hcs2 hds3 hnd3 hsum3 (d, dn - min cn dn) (by simp)
          rw [hrec]
          omega
        · have hne : p.1 ≠ d := by
            intro hcontra
            exact hndd.1 (hcontra ▸ List.mem_map_of_mem (fun q => q.1) hpt)
          rw [paidOf_cons, if_neg (fun hcontra => hne hcontra.symm)]
          rw [ih2 hcs2 hds3 hnd3 hsum3 p (by simp [hpt])]
          omega
    · -- dn < cn: debtor head consumed
      rw [if_neg h1]
      have hlt : dn < cn := by omega
      have hcs3 : ∀ q ∈ (c, cn - min cn dn) :: cs, 0 < q.2 := by
        intro q hq
        rcases List.mem_cons.mp hq with hqh | hqt
        · subst hqh; dsimp only; omega
        · exact hcs2 q hqt
      have hsum3 : (((c, cn - min cn dn) :: cs).map (fun p => p.2)).sum
          = (ds.map (fun p => p.2)).sum := by
        simp only [List.map_cons, List.sum_cons]
        omega
      rcases List.mem_cons.mp hp with hph | hpt
      · subst hph
        dsimp only
        rw [paidOf_cons, if_pos rfl,
          paidOf_eq_zero ((c, cn - min cn dn) :: cs) ds d hndd.1]
        omega
      · have hne : p.1 ≠ d := by
          intro hcontra
          exact hndd.1 (hcontra ▸ List.mem_map_of_mem (fun q => q.1) hpt)
        rw [paidOf_cons, if_neg (fun hcontra => hne hcontra.symm)]
        rw [ih3 hcs3 hds2 hndd.2 hsum3 p hpt]
        omega

/-! ## Zero-sum of the settlement deltas. -/

theorem sum_map_const_range (n c : ℕ) : ((List.range n).map (fun _ => c)).sum = n * c := by
  induction n with
  | zero => simp
  | succ m ih =>
    rw [List.range_succ, List.map_append, List.sum_append, ih]
    simp [Nat.succ_mul]

theorem sum_map_zero_int {β : Type} (m : List β) : (m.map (fun _ => (0 : ℤ))).sum = 0 := by
  induction m with
  | nil => simp
  | cons b t ih => simp [ih]

theorem target_shares_sum (M n : ℕ) (hn : 0 < n) : (target_shares M n).sum = M := by
  unfold target_shares target_share
  rw [list_sum_map_add, sum_map_const_range, sum_range_ite_lt,
    Nat.min_eq_left (le_of_lt (Nat.mod_lt M hn))]
  exact Nat.div_add_mod M n

theorem list_sum_comm {α β : Type} (l : List α) (m : List β) (f : α → β → ℤ) :
    (l.map (fun x => (m.map (fun y => f x y)).sum)).sum
      = (m.map (fun y => (l.map (fun x => f x y)).sum)).sum := by
  induction l with
  | nil =>
    simp only [List.map_nil, List.sum_nil]
    exact (sum_map_zero_int m).symm
  | cons a t ih =>
    simp only [List.map_cons, List.sum_cons]
    rw [ih, ← list_sum_map_add]

theorem sum_map_ite_eq_int (l : List String) (x : String) (z : ℤ) (hnd : l.Nodup)
    (hx : x ∈ l) : (l.map (fun u => if x = u then z else 0)).sum = z := by
  induction l with
  | nil => simp at hx
  | cons b t ih =>
    by_cases hxb : x = b
    · subst hxb
      have hnot : x ∉ t := (List.nodup_cons.mp hnd).1
      rw [List.map_cons, List.sum_cons, if_pos rfl]
      have hzero : (t.map (fun u => if x = u then z else 0)).sum = 0 := by
        have heq : t.map (fun u => if x = u then z else 0) = t.map (fun _ => (0 : ℤ)) := by
          apply List.map_congr_left
          intro u hu
          exact if_neg (fun h => hnot (by rw [h]; exact hu))
        rw [heq]
        exact sum_map_zero_int t
      rw [hzero]
      ring
    · have hxt : x ∈ t := by
        rcases List.mem_cons.mp hx with h | h
        · exact absurd h hxb
        · exact h
      simp only [List.map_cons, List.sum_cons, if_neg hxb]
      rw [ih (List.nodup_cons.mp hnd).2 hxt]
      ring

theorem payment_adjust_sum_zero (ids : List String)
    (payments : List (String × Option String × ℕ)) (hnd : ids.Nodup) :
    (ids.map (fun uid => payment_adjust ids payments uid)).sum = 0 := by
  unfold payment_adjust
  rw [list_sum_comm]
  have hz : payments.map (fun q => (ids.map (fun uid =>
      match q.2.1 with
      | some t =>
        if q.1 ∈ ids ∧ t ∈ ids then
          (if q.1 = uid then (q.2.2 : ℤ) else 0) - (if t = uid then (q.2.2 : ℤ) else 0)
        else 0
      | none => 0)).sum) = payments.map (fun _ => (0 : ℤ)) := by
    apply List.map_congr_left
    intro q _
    match hq : q.2.1 with
    | none => simp
    | some t =>
      by_cases hin : q.1 ∈ ids ∧ t ∈ ids
      · have heq : ids.map (fun uid =>
            if q.1 ∈ ids ∧ t ∈ ids then
              (if q.1 = uid then (q.2.2 : ℤ) else 0) - (if t = uid then (q.2.2 : ℤ) else 0)
            else 0)
            = ids.map (fun uid =>
              (if q.1 = uid then (q.2.2 : ℤ) else 0) - (if t = uid then (q.2.2 : ℤ) else 0)) := by
          apply List.map_congr_left
          intro u _
          rw [if_pos hin]
        rw [heq, list_sum_map_sub, sum_map_ite_eq_int ids q.1 _ hnd hin.1,
          sum_map_ite_eq_int ids t _ hnd hin.2]
        ring
      · have heq : ids.map (fun uid =>
            if q.1 ∈ ids ∧ t ∈ ids then
              (if q.1 = uid then (q.2.2 : ℤ) else 0) - (if t = uid then (q.2.2 : ℤ) else 0)
            else 0) = ids.map (fun _ => (0 : ℤ)) := by
          apply List.map_congr_left
          intro u _
          rw [if_neg hin]
        rw [heq]
        exact sum_map_zero_int ids
  rw [hz]
  exact sum_map_zero_int payments

theorem settlement_deltas_sum_zero (participants : List (String × ℕ))
    (bankTotal memberExtra : ℕ) (payments : List (String × Option String × ℕ))
    (hpos : 0 < (participants.map (fun p => p.2)).sum)
    (hbe : bankTotal + memberExtra = (participants.map (fun p => p.2)).sum)
    (hnd : (participants.map (fun p => p.1)).Nodup) :
    ((settlement_deltas participants bankTotal memberExtra payments).map
      (fun p => p.2)).sum = 0 := by
  have hne : participants ≠ [] := by rintro rfl; simp at hpos
  have hnpos : 0 < participants.length := List.length_pos.mpr hne
  unfold settlement_deltas
  rw [List.map_map]
  have hshape : ((fun p : String × ℤ => p.2) ∘ fun p : ℕ × (String × ℕ) =>
      (p.2.1, (p.2.2 : ℤ)
        - (((allocate_proportional_amounts bankTotal
            (participants.map (fun q => q.2))).getD p.1 0 : ℕ) : ℤ)
        - ((target_share memberExtra participants.length p.1 : ℕ) : ℤ)
        + payment_adjust (participants.map (fun q => q.1)) payments p.2.1))
      = fun p : ℕ × (String × ℕ) =>
        ((p.2.2 : ℤ)
          - (((allocate_proportional_amounts bankTotal
              (participants.map (fun q => q.2))).getD p.1 0 : ℕ) : ℤ)
          - ((target_share memberExtra participants.length p.1 : ℕ) : ℤ))
        + payment_adjust (participants.map (fun q => q.1)) payments p.2.1 := rfl
  rw [hshape, list_sum_map_add]
  have hsub : (participants.enum.map (fun p : ℕ × (String × ℕ) =>
      (p.2.2 : ℤ)
        - (((allocate_proportional_amounts bankTotal
            (participants.map (fun q => q.2))).getD p.1 0 : ℕ) : ℤ)
        - ((target_share memberExtra participants.length p.1 : ℕ) : ℤ))).sum
      = (participants.enum.map (fun p : ℕ × (String × ℕ) =>
          (p.2.2 : ℤ)
            - (((allocate_proportional_amounts bankTotal
                (participants.map (fun q => q.2))).getD p.1 0 : ℕ) : ℤ))).sum
        - (participants.enum.map (fun p : ℕ × (String × ℕ) =>
            ((target_share memberExtra participants.length p.1 : ℕ) : ℤ))).sum :=
    list_sum_map_sub _ _ _
  have hsub2 : (participants.enum.map (fun p : ℕ × (String × ℕ) =>
      (p.2.2 : ℤ)
        - (((allocate_proportional_amounts bankTotal
            (participants.map (fun q => q.2))).getD p.1 0 : ℕ) : ℤ))).sum
      = (participants.enum.map (fun p : ℕ × (String × ℕ) => (p.2.2 : ℤ))).sum
        - (participants.enum.map (fun p : ℕ × (String × ℕ) =>
            (((allocate_proportional_amounts bankTotal
                (participants.map (fun q => q.2))).getD p.1 0 : ℕ) : ℤ))).sum :=
    list_sum_map_sub _ _ _
  have hA : (participants.enum.map (fun p : ℕ × (String × ℕ) => (p.2.2 : ℤ))).sum
      = (((participants.map (fun q => q.2)).sum : ℕ) : ℤ) := by
    rw [list_sum_natCast]
    have hc : (fun p : ℕ × (String × ℕ) => (p.2.2 : ℤ))
        = (fun q : String × ℕ => (q.2 : ℤ)) ∘ Prod.snd := rfl
    rw [hc, ← List.map_map, List.enum_map_snd]
  have hB : (participants.enum.map (fun p : ℕ × (String × ℕ) =>
      (((allocate_proportional_amounts bankTotal
          (participants.map (fun q => q.2))).getD p.1 0 : ℕ) : ℤ))).sum
      = (bankTotal : ℤ) := by
    have hc : (fun p : ℕ × (String × ℕ) =>
        (((allocate_proportional_amounts bankTotal
            (participants.map (fun q => q.2))).getD p.1 0 : ℕ) : ℤ))
        = (fun i : ℕ =>
          (((allocate_proportional_amounts bankTotal
              (participants.map (fun q => q.2))).getD i 0 : ℕ) : ℤ)) ∘ Prod.fst := rfl
    rw [hc, ← List.map_map, List.enum_map_fst]
    have hlen : participants.length
        = (allocate_proportional_amounts bankTotal (participants.map (fun q => q.2))).length := by
      rw [allocate_length, List.length_map]
    rw [hlen, ← list_sum_natCast, sum_getD_range,
      allocate_sum bankTotal (participants.map (fun q => q.2)) hpos]
  have hC : (participants.enum.map (fun p : ℕ × (String × ℕ) =>
      ((target_share memberExtra participants.length p.1 : ℕ) : ℤ))).sum
      = (memberExtra : ℤ) := by
    have hc : (fun p : ℕ × (String × ℕ) =>
        ((target_share memberExtra participants.length p.1 : ℕ) : ℤ))
        = (fun i : ℕ => ((target_share memberExtra participants.length i : ℕ) : ℤ)) ∘ Prod.fst :=
      rfl
    rw [hc, ← List.map_map, List.enum_map_fst, ← list_sum_natCast]
    have : ((List.range participants.length).map
        (target_share memberExtra participants.length)).sum = memberExtra :=
      target_shares_sum memberExtra participants.length hnpos
    rw [this]
  have hD : (participants.enum.map (fun p : ℕ × (String × ℕ) =>
      payment_adjust (participants.map (fun q => q.1)) payments p.2.1)).sum = 0 := by
    have hc : (fun p : ℕ × (String × ℕ) =>
        payment_adjust (participants.map (fun q => q.1)) payments p.2.1)
        = ((fun uid => payment_adjust (participants.map (fun q => q.1)) payments uid)
            ∘ (fun q : String × ℕ => q.1)) ∘ Prod.snd := rfl
    rw [hc, ← List.map_map, List.enum_map_snd, ← List.map_map]
    exact payment_adjust_sum_zero (participants.map (fun q => q.1)) payments hnd
  rw [hsub, hsub2, hA, hB, hC, hD]
  omega

/-! ## Creditors and debtors. -/

theorem creditors_sub_debtors (l : List (String × ℤ)) :
    ((((settlement_creditors l).map (fun p => p.2)).sum : ℕ) : ℤ)
      - ((((settlement_debtors l).map (fun p => p.2)).sum : ℕ) : ℤ)
      = (l.map (fun p => p.2)).sum := by
  induction l with
  | nil => simp [settlement_creditors, settlement_debtors]
  | cons q t ih =>
    rcases lt_trichotomy q.2 0 with hlt | heq | hgt
    · have hc : settlement_creditors (q :: t) = settlement_creditors t := by
        simp [settlement_creditors, List.filter_cons, show ¬ (0 : ℤ) < q.2 by omega]
      have hd : settlement_debtors (q :: t) = (q.1, (-q.2).toNat) :: settlement_debtors t := by
        simp [settlement_debtors, List.filter_cons, hlt]
      rw [hc, hd]
      simp only [List.map_cons, List.sum_cons, Nat.cast_add]
      have htn : (((-q.2).toNat : ℕ) : ℤ) = -q.2 := Int.toNat_of_nonneg (by omega)
      rw [htn]
      omega
    · have hc : settlement_creditors (q :: t) = settlement_creditors t := by
        simp [settlement_creditors, List.filter_cons, show ¬ (0 : ℤ) < q.2 by omega]
      have hd : settlement_debtors (q :: t) = settlement_debtors t := by
        simp [settlement_debtors, List.filter_cons, show ¬ q.2 < (0 : ℤ) by omega]
      rw [hc, hd]
      simp only [List.map_cons, List.sum_cons]
      omega
    · have hc : settlement_creditors (q :: t) = (q.1, q.2.toNat) :: settlement_creditors t := by
        simp [settlement_creditors, List.filter_cons, hgt]
      have hd : settlement_debtors (q :: t) = settlement_debtors t := by
        simp [settlement_debtors, List.filter_cons, show ¬ q.2 < (0 : ℤ) by omega]
      rw [hc, hd]
      simp only [List.map_cons, List.sum_cons, Nat.cast_add]
      have htn : ((q.2.toNat : ℕ) : ℤ) = q.2 := Int.toNat_of_nonneg (by omega)
      rw [htn]
      omega

theorem creditors_pos (l : List (String × ℤ)) :
    ∀ p ∈ settlement_creditors l, 0 < p.2 := by
  intro p hp
  unfold settlement_creditors at hp
  rcases List.mem_map.mp hp with ⟨q, hq, hpe⟩
  have hq2 : 0 < q.2 := by simpa using (List.mem_filter.mp hq).2
  subst hpe
  show 0 < q.2.toNat
  omega

theorem debtors_pos (l : List (String × ℤ)) :
    ∀ p ∈ settlement_debtors l, 0 < p.2 := by
  intro p hp
  unfold settlement_debtors at hp
  rcases List.mem_map.mp hp with ⟨q, hq, hpe⟩
  have hq2 : q.2 < 0 := by simpa using (List.mem_filter.mp hq).2
  subst hpe
  show 0 < (-q.2).toNat
  omega

theorem creditors_fst_nodup (l : List (String × ℤ))
    (hnd : (l.map (fun p => p.1)).Nodup) :
    ((settlement_creditors l).map (fun p => p.1)).Nodup := by
  unfold settlement_creditors
  rw [List.map_map]
  have hshape : ((fun p : String × ℕ => p.1) ∘ fun p : String × ℤ => (p.1, p.2.toNat))
      = fun p : String × ℤ => p.1 := rfl
  rw [hshape]
  exact hnd.sublist ((List.filter_sublist l).map _)

theorem debtors_fst_nodup (l : List (String × ℤ))
    (hnd : (l.map (fun p => p.1)).Nodup) :
    ((settlement_debtors l).map (fun p => p.1)).Nodup := by
  unfold settlement_debtors
  rw [List.map_map]
  have hshape : ((fun p : String × ℕ => p.1) ∘ fun p : String × ℤ => (p.1, (-p.2).toNat))
      = fun p : String × ℤ => p.1 := rfl
  rw [hshape]
  exact hnd.sublist ((List.filter_sublist l).map _)

theorem settlement_deltas_fst (participants : List (String × ℕ))
    (bankTotal memberExtra : ℕ) (payments : List (String × Option String × ℕ)) :
    (settlement_deltas participants bankTotal memberExtra payments).map (fun p => p.1)
      = participants.map (fun p => p.1) := by
  unfold settlement_deltas
  rw [List.map_map]
  have hshape : ∀ g : ℕ × (String × ℕ) → ℤ,
      ((fun p : String × ℤ => p.1) ∘ fun p : ℕ × (String × ℕ) => (p.2.1, g p))
        = (fun q : String × ℕ => q.1) ∘ Prod.snd := fun g => rfl
  rw [hshape]
  rw [← List.map_map, List.enum_map_snd]

theorem prev_window_core (ry0 rm0 py pm ry rm : ℕ)
    (h : ((if rm0 = 1 then (ry0 - 1, 12) else (ry0, rm0 - 1)), (ry0, rm0))
      = ((py, pm), (ry, rm))) :
    (rm = 1 → py = ry - 1 ∧ pm = 12) ∧ (rm ≠ 1 → py = ry ∧ pm = rm - 1) := by
  split_ifs at h with hm <;>
    simp only [Prod.mk.injEq] at h <;>
    obtain ⟨⟨e1, e2⟩, e3, e4⟩ := h <;>
    exact ⟨fun hr => by omega, fun hr => by omega⟩

theorem get_previous_month_window_adjacent (now : DateTime) (spec : Option RangeSpec)
    (py pm ry rm : ℕ) (h : get_previous_month_window now spec = ((py, pm), (ry, rm))) :
    (rm = 1 → py = ry - 1 ∧ pm = 12) ∧ (rm ≠ 1 → py = ry ∧ pm = rm - 1) := by
  rcases spec with _ | sp
  · exact prev_window_core now.year now.month py pm ry rm h
  · rcases sp with s | ⟨y, m, d⟩ | ⟨y, m⟩ | ⟨y, sm, em⟩ | y
    · exact prev_window_core now.year now.month py pm ry rm h
    · exact prev_window_core y m py pm ry rm h
    · exact prev_window_core y m py pm ry rm h
    · exact prev_window_core y sm py pm ry rm h
    · exact prev_window_core y 1 py pm ry rm h

/-! ## Claim theorems. -/

/-- C1: for every pool amount greater than zero and every list of
non-negative per-participant paid amounts whose total is positive, the
largest-remainder proportional allocation sums exactly to the pool; likewise
the residual split (floor-division base share plus one extra unit for the
first `remainder` participants in roster order) sums exactly to
`total expense - pool`. -/
theorem C1_settlement_allocations_sum_exact :
    (∀ (pool : ℕ) (weights : List ℕ), 0 < pool → 0 < weights.sum →
      (allocate_proportional_amounts pool weights).sum = pool) ∧
    (∀ (totalExpense pool n : ℕ), 0 < n → pool ≤ totalExpense →
      (target_shares (totalExpense - pool) n).sum = totalExpense - pool) := by
  constructor
  · intro pool weights _ hw
    exact allocate_sum pool weights hw
  · intro totalExpense pool n hn _
    exact target_shares_sum (totalExpense - pool) n hn

theorem C1_settlement_allocations_sum_exact_witness :
    (allocate_proportional_amounts 10 [3, 3, 3]).sum = 10 ∧
    (target_shares (300 - 100) 3).sum = 300 - 100 :=
  ⟨C1_settlement_allocations_sum_exact.1 10 [3, 3, 3] (by decide) (by decide),
   C1_settlement_allocations_sum_exact.2 300 100 3 (by decide) (by decide)⟩

/-- C2: for every settlement computation (any roster with its in-range paid
totals, any reimbursement pool and residual total as the source computes them,
any recorded settlement payments), the per-participant net deltas
`(paid - bank withdrawal) - target share + payment adjustment` satisfy: the
positive deltas (creditors) and the magnitudes of the negative deltas
(debtors) have equal sums, and the greedy two-pointer sweep in source order
produces transfers under which every creditor receives exactly its delta and
every debtor pays exactly its delta — no participant is left with a nonzero
remainder. -/
theorem C2_settlement_zero_sum_and_greedy_nets_to_zero :
    ∀ (participants : List (String × ℕ)) (bankTotal memberExtra : ℕ)
      (payments : List (String × Option String × ℕ)),
      0 < (participants.map (fun p => p.2)).sum →
      bankTotal + memberExtra = (participants.map (fun p => p.2)).sum →
      (participants.map (fun p => p.1)).Nodup →
      ((settlement_creditors (settlement_deltas participants bankTotal memberExtra
          payments)).map (fun p => p.2)).sum
        = ((settlement_debtors (settlement_deltas participants bankTotal memberExtra
            payments)).map (fun p => p.2)).sum
      ∧ (∀ p ∈ settlement_creditors (settlement_deltas participants bankTotal memberExtra
            payments),
          recvOf p.1 (greedy_transfers
            (settlement_creditors (settlement_deltas participants bankTotal memberExtra
              payments))
            (settlement_debtors (settlement_deltas participants bankTotal memberExtra
              payments))) = p.2)
      ∧ (∀ p ∈ settlement_debtors (settlement_deltas participants bankTotal memberExtra
            payments),
          paidOf p.1 (greedy_transfers
            (settlement_creditors (settlement_deltas participants bankTotal memberExtra
              payments))
            (settlement_debtors (settlement_deltas participants bankTotal memberExtra
              payments))) = p.2) := by
  intro participants bankTotal memberExtra payments hpos hbe hnd
  have hzero := settlement_deltas_sum_zero participants bankTotal memberExtra payments
    hpos hbe hnd
  have hfst : ((settlement_deltas participants bankTotal memberExtra payments).map
      (fun p => p.1)).Nodup := by
    rw [settlement_deltas_fst]
    exact hnd
  have hdiff := creditors_sub_debtors (settlement_deltas participants bankTotal memberExtra
    payments)
  rw [hzero] at hdiff
  have hsums : ((settlement_creditors (settlement_deltas participants bankTotal memberExtra
      payments)).map (fun p => p.2)).sum
      = ((settlement_debtors (settlement_deltas participants bankTotal memberExtra
          payments)).map (fun p => p.2)).sum := by
    omega
  refine ⟨hsums, ?_, ?_⟩
  · exact greedy_recv _ _ (creditors_pos _) (debtors_pos _) (creditors_fst_nodup _ hfst) hsums
  · exact greedy_paid _ _ (creditors_pos _) (debtors_pos _) (debtors_fst_nodup _ hfst) hsums

theorem C2_settlement_zero_sum_and_greedy_nets_to_zero_witness :
    ((settlement_creditors (settlement_deltas [("a", 300), ("b", 0), ("c", 0)] 0 300 [])).map
        (fun p => p.2)).sum
      = ((settlement_debtors (settlement_deltas [("a", 300), ("b", 0), ("c", 0)] 0 300 [])).map
          (fun p => p.2)).sum
    ∧ (∀ p ∈ settlement_creditors (settlement_deltas [("a", 300), ("b", 0), ("c", 0)] 0 300 []),
        recvOf p.1 (greedy_transfers
          (settlement_creditors (settlement_deltas [("a", 300), ("b", 0), ("c", 0)] 0 300 []))
          (settlement_debtors (settlement_deltas [("a", 300), ("b", 0), ("c", 0)] 0 300 [])))
          = p.2)
    ∧ (∀ p ∈ settlement_debtors (settlement_deltas [("a", 300), ("b", 0), ("c", 0)] 0 300 []),
        paidOf p.1 (greedy_transfers
          (settlement_creditors (settlement_deltas [("a", 300), ("b", 0), ("c", 0)] 0 300 []))
          (settlement_debtors (settlement_deltas [("a", 300), ("b", 0), ("c", 0)] 0 300 [])))
          = p.2) :=
  C2_settlement_zero_sum_and_greedy_nets_to_zero [("a", 300), ("b", 0), ("c", 0)] 0 300 []
    (by decide) (by decide) (by decide)

/-- C3: the shared-fund reimbursement pool computed by the settlement builder
equals `min(total in-range expense, max(0, previous-period carried balance +
in-range income))`; the residual split among `n` members sums exactly to
`total expense - pool`; and `get_previous_month_window` returns the month
immediately before the reference month of the range spec (with January
rolling back to December of the previous year). -/
theorem C3_reimbursement_pool_and_previous_window :
    ∀ (totalExpense : ℕ) (prevBalance : ℤ) (totalIncome : ℕ) (now : DateTime)
      (spec : Option RangeSpec) (n py pm ry rm : ℕ),
      bank_reimbursement_total totalExpense prevBalance totalIncome
        = reimbursement_pool_spec totalExpense prevBalance totalIncome
      ∧ (0 < n →
          (target_shares
            (totalExpense - bank_reimbursement_total totalExpense prevBalance totalIncome)
            n).sum
          = totalExpense - bank_reimbursement_total totalExpense prevBalance totalIncome)
      ∧ (get_previous_month_window now spec = ((py, pm), (ry, rm)) →
          (rm = 1 → py = ry - 1 ∧ pm = 12) ∧ (rm ≠ 1 → py = ry ∧ pm = rm - 1)) := by
  intro totalExpense prevBalance totalIncome now spec n py pm ry rm
  refine ⟨?_, ?_, ?_⟩
  · unfold bank_reimbursement_total available_bank_funds reimbursement_pool_spec
    omega
  · intro hn
    exact target_shares_sum _ n hn
  · intro h
    exact get_previous_month_window_adjacent now spec py pm ry rm h

theorem C3_reimbursement_pool_and_previous_window_witness :
    (bank_reimbursement_total 500 (-100) 300
        = reimbursement_pool_spec 500 (-100) 300
      ∧ (target_shares (500 - bank_reimbursement_total 500 (-100) 300) 3).sum
        = 500 - bank_reimbursement_total 500 (-100) 300)
    ∧ ((1 = 1 → 2024 = 2025 - 1 ∧ 12 = 12) ∧ (1 ≠ 1 → 2024 = 2025 ∧ 12 = 1 - 1)) := by
  have h := C3_reimbursement_pool_and_previous_window 500 (-100) 300
    ⟨2025, 3, 5, 10, 20, 30⟩ (some (RangeSpec.monthYear 2025 1)) 3 2024 12 2025 1
  exact ⟨⟨h.1, h.2.1 (by decide)⟩, h.2.2 (by decide)⟩

/-- C4: the trailing-option disambiguation of `parse_record_message`: zero
option tokens keep the defaults (type `支出` unless the item contains the bank
marker `銀行`, which makes it `收入`; timestamp `now`); one option token is
first read as a record type and, on type-parse failure, reparsed as an MM/DD
date, and a token that is neither fails the line with an error; two option
tokens must be a record type followed by a date, with no other order
accepted; more than two option tokens is a format error. -/
theorem C4_option_token_disambiguation :
    ∀ (now : DateTime) (lineNumber : ℕ) (item t a b : String) (opts : List String),
      (process_type_or_date_options now lineNumber
          (if strContains item "銀行" then "收入" else "支出") []
        = Except.ok ((if strContains item "銀行" then "收入" else "支出"), now))
      ∧ ((t = "支出" ∨ t = "expense" ∨ t = "Expense" ∨ t = "EXPENSE") →
          ∀ d0, process_type_or_date_options now lineNumber d0 [t] = Except.ok ("支出", now))
      ∧ ((t = "收入" ∨ t = "income" ∨ t = "Income" ∨ t = "INCOME") →
          ∀ d0, process_type_or_date_options now lineNumber d0 [t] = Except.ok ("收入", now))
      ∧ (¬ (t = "支出" ∨ t = "expense" ∨ t = "Expense" ∨ t = "EXPENSE") →
         ¬ (t = "收入" ∨ t = "income" ∨ t = "Income" ∨ t = "INCOME") →
         ∀ d0 m d, strptime_mmdd t = some (m, d) →
           process_type_or_date_options now lineNumber d0 [t]
             = Except.ok (d0, ⟨now.year, m, d, now.hour, now.minute, now.second⟩))
      ∧ (¬ (t = "支出" ∨ t = "expense" ∨ t = "Expense" ∨ t = "EXPENSE") →
         ¬ (t = "收入" ∨ t = "income" ∨ t = "Income" ∨ t = "INCOME") →
         strptime_mmdd t = none →
         ∀ d0, process_type_or_date_options now lineNumber d0 [t]
           = Except.error "日期格式請用 MM/DD，例如 02/27")
      ∧ (¬ (a = "支出" ∨ a = "expense" ∨ a = "Expense" ∨ a = "EXPENSE") →
         ¬ (a = "收入" ∨ a = "income" ∨ a = "Income" ∨ a = "INCOME") →
         ∀ d0, process_type_or_date_options now lineNumber d0 [a, b]
           = Except.error "收支類型只能填：支出 或 收入")
      ∧ (∀ d0 ty m d, normalize_record_type a = Except.ok ty →
          strptime_mmdd b = some (m, d) →
          process_type_or_date_options now lineNumber d0 [a, b]
            = Except.ok (ty, ⟨now.year, m, d, now.hour, now.minute, now.second⟩))
      ∧ (∀ d0 ty, normalize_record_type a = Except.ok ty → strptime_mmdd b = none →
          process_type_or_date_options now lineNumber d0 [a, b]
            = Except.error "日期格式請用 MM/DD，例如 02/27")
      ∧ (2 < opts.length →
          process_type_or_date_options now lineNumber
            (if strContains item "銀行" then "收入" else "支出") opts
          = Except.error
            s!"第{lineNumber}行格式錯誤，請用：@記帳 項目 金額 [支出或收入] [MM/DD] [@對象]（分隔可用空白/，/,）") := by
  intro now lineNumber item t a b opts
  refine ⟨rfl, ?_, ?_, ?_, ?_, ?_, ?_, ?_, ?_⟩
  · intro ht d0
    have hn : normalize_record_type t = Except.ok "支出" := by
      unfold normalize_record_type
      rw [if_pos ht]
    simp only [process_type_or_date_options, hn]
  · intro ht d0
    have hne : ¬ (t = "支出" ∨ t = "expense" ∨ t = "Expense" ∨ t = "EXPENSE") := by
      rcases ht with h | h | h | h <;> subst h <;> decide
    have hn : normalize_record_type t = Except.ok "收入" := by
      unfold normalize_record_type
      rw [if_neg hne, if_pos ht]
    simp only [process_type_or_date_options, hn]
  · intro hn1 hn2 d0 m d hs
    have hn : normalize_record_type t = Except.error "收支類型只能填：支出 或 收入" := by
      unfold normalize_record_type
      rw [if_neg hn1, if_neg hn2]
    simp only [process_type_or_date_options, hn, parse_mmdd_date_input, hs]
  · intro hn1 hn2 hs d0
    have hn : normalize_record_type t = Except.error "收支類型只能填：支出 或 收入" := by
      unfold normalize_record_type
      rw [if_neg hn1, if_neg hn2]
    simp only [process_type_or_date_options, hn, parse_mmdd_date_input, hs]
  · intro hn1 hn2 d0
    have hn : normalize_record_type a = Except.error "收支類型只能填：支出 或 收入" := by
      unfold normalize_record_type
      rw [if_neg hn1, if_neg hn2]
    simp only [process_type_or_date_options, hn]
  · intro d0 ty m d hty hs
    simp only [process_type_or_date_options, hty, parse_mmdd_date_input, hs]
  · intro d0 ty hty hs
    simp only [process_type_or_date_options, hty, parse_mmdd_date_input, hs]
  · intro hlen
    rcases opts with _ | ⟨x, _ | ⟨y, _ | ⟨z, rest⟩⟩⟩
    · simp at hlen
    · simp at hlen
    · simp at hlen
    · rfl

theorem C4_option_token_disambiguation_witness :
    process_type_or_date_options ⟨2025, 3, 5, 10, 20, 30⟩ 1 "支出" ["收入"]
      = Except.ok ("收入", ⟨2025, 3, 5, 10, 20, 30⟩)
    ∧ process_type_or_date_options ⟨2025, 3, 5, 10, 20, 30⟩ 1 "支出" ["EXPENSE"]
      = Except.ok ("支出", ⟨2025, 3, 5, 10, 20, 30⟩)
    ∧ process_type_or_date_options ⟨2025, 3, 5, 10, 20, 30⟩ 1 "支出" ["2/20"]
      = Except.ok ("支出", ⟨2025, 2, 20, 10, 20, 30⟩)
    ∧ process_type_or_date_options ⟨2025, 3, 5, 10, 20, 30⟩ 1 "支出" ["xyz"]
      = Except.error "日期格式請用 MM/DD，例如 02/27"
    ∧ process_type_or_date_options ⟨2025, 3, 5, 10, 20, 30⟩ 1 "支出" ["支出", "2/20"]
      = Except.ok ("支出", ⟨2025, 2, 20, 10, 20, 30⟩)
    ∧ process_type_or_date_options ⟨2025, 3, 5, 10, 20, 30⟩ 1 "支出" ["2/20", "支出"]
      = Except.error "收支類型只能填：支出 或 收入"
    ∧ process_type_or_date_options ⟨2025, 3, 5, 10, 20, 30⟩ 1 "支出" ["支出", "2/30"]
      = Except.error "日期格式請用 MM/DD，例如 02/27"
    ∧ process_type_or_date_options ⟨2025, 3, 5, 10, 20, 30⟩ 1 "收入" ["a", "b", "c"]
      = Except.error "第1行格式錯誤，請用：@記帳 項目 金額 [支出或收入] [MM/DD] [@對象]（分隔可用空白/，/,）" := by
  have h1 := C4_option_token_disambiguation ⟨2025, 3, 5, 10, 20, 30⟩ 1 "銀行" "收入" "支出" "2/20"
    ["a", "b", "c"]
  have h2 := C4_option_token_disambiguation ⟨2025, 3, 5, 10, 20, 30⟩ 1 "銀行" "EXPENSE" "2/20" "支出"
    ["a", "b", "c"]
  have h3 := C4_option_token_disambiguation ⟨2025, 3, 5, 10, 20, 30⟩ 1 "銀行" "2/20" "支出" "2/30"
    ["a", "b", "c"]
  have h4 := C4_option_token_disambiguation ⟨2025, 3, 5, 10, 20, 30⟩ 1 "銀行" "xyz" "支出" "2/20"
    ["a", "b", "c"]
  refine ⟨?_, ?_, ?_, ?_, ?_, ?_, ?_, ?_⟩
  · exact h1.2.2.1 (by decide) "支出"
  · exact h2.2.1 (by decide) "支出"
  · exact h3.2.2.2.1 (by decide) (by decide) "支出" 2 20 rfl
  · exact h4.2.2.2.2.1 (by decide) (by decide) rfl "支出"
  · exact h1.2.2.2.2.2.2.1 "支出" "支出" 2 20 rfl rfl
  · exact h2.2.2.2.2.2.1 (by decide) (by decide) "支出"
  · exact h3.2.2.2.2.2.2.2.1 "支出" "支出" rfl rfl
  · exact h1.2.2.2.2.2.2.2.2 (by decide)

/-- C5 (corrected): for every MM/DD token, the date parser succeeds exactly
when the token is a valid date of the year 1900 — the implicit default year of
`strptime("%m/%d")`, which is not a leap year — returning the current year and
the current time of day; a token whose month/day pattern matches but which is
not a valid 1900 date fails with the format error.  In particular 2/29 fails
even when the current year is a leap year (see the counterexample). -/
theorem C5_mmdd_date_parse_amended :
    ∀ (now : DateTime) (s : String) (m d : ℕ),
      (mmdd_format s = some (m, d) → valid1900 m d = true →
        parse_mmdd_date_input now s
          = Except.ok ⟨now.year, m, d, now.hour, now.minute, now.second⟩)
      ∧ (mmdd_format s = some (m, d) → valid1900 m d = false →
        parse_mmdd_date_input now s = Except.error "日期格式請用 MM/DD，例如 02/27")
      ∧ (mmdd_format s = none →
        parse_mmdd_date_input now s = Except.error "日期格式請用 MM/DD，例如 02/27") := by
  intro now s m d
  refine ⟨?_, ?_, ?_⟩
  · intro h1 h2
    simp only [parse_mmdd_date_input, strptime_mmdd, h1, h2]
    rfl
  · intro h1 h2
    simp only [parse_mmdd_date_input, strptime_mmdd, h1, h2]
    rfl
  · intro h1
    simp only [parse_mmdd_date_input, strptime_mmdd, h1]

theorem C5_mmdd_date_parse_amended_witness :
    parse_mmdd_date_input ⟨2025, 3, 5, 10, 20, 30⟩ "2/20"
      = Except.ok ⟨2025, 2, 20, 10, 20, 30⟩
    ∧ parse_mmdd_date_input ⟨2025, 3, 5, 10, 20, 30⟩ "2/30"
      = Except.error "日期格式請用 MM/DD，例如 02/27"
    ∧ parse_mmdd_date_input ⟨2025, 3, 5, 10, 20, 30⟩ "hello"
      = Except.error "日期格式請用 MM/DD，例如 02/27" := by
  have h1 := C5_mmdd_date_parse_amended ⟨2025, 3, 5, 10, 20, 30⟩ "2/20" 2 20
  have h2 := C5_mmdd_date_parse_amended ⟨2025, 3, 5, 10, 20, 30⟩ "2/30" 2 30
  have h3 := C5_mmdd_date_parse_amended ⟨2025, 3, 5, 10, 20, 30⟩ "hello" 0 0
  exact ⟨h1.1 rfl rfl, h2.2.1 rfl rfl, h3.2.2 rfl⟩

/-- C5 counterexample: with the current year 2024 (a leap year), `2/29` is a
valid calendar date of the current year, yet the date parser rejects it with
the format error — the claim that every MM/DD token denoting a valid date of
the current year parses successfully is false. -/
theorem C5_mmdd_date_parse_counterexample :
    isValidDate 2024 2 29 = true
    ∧ parse_mmdd_date_input ⟨2024, 3, 5, 10, 20, 30⟩ "2/29"
        = Except.error "日期格式請用 MM/DD，例如 02/27" := by
  exact ⟨rfl, rfl⟩

/-- C6: with a pending delete armed, a confirmation token deletes exactly the
stable record id captured at arm time (no re-resolution of the display id)
and clears the pending slot; any non-confirming message clears the slot and
is then handled exactly as it would be in the disarmed state; and a
confirmation token with no pending delete is ordinary input the router
ignores (it does not start with the command prefix). -/
theorem C6_pending_delete_confirmation_gate :
    (∀ (env : Env) (s : ChatState) (pd : PendingDelete) (text : String),
      s.pendingDelete = some pd → text.trimF ∈ confirm_keywords →
      handle_message env s text =
        ({ s with
             records := s.records.filter (fun r => r.id ≠ pd.realId)
             pendingDelete := none },
         some (confirm_delete_reply
           (s.records.filter (fun r => r.id = pd.realId)).length pd.displayId))) ∧
    (∀ (env : Env) (s : ChatState) (pd : PendingDelete) (text : String),
      s.pendingDelete = some pd → text.trimF ∉ confirm_keywords →
      handle_message env s text =
        handle_message env { s with pendingDelete := none } text) ∧
    (∀ (env : Env) (s : ChatState) (text : String),
      s.pendingDelete = none → text.trimF ∈ confirm_keywords →
      handle_message env s text = (s, none)) := by
  refine ⟨?_, ?_, ?_⟩
  · intro env s pd text hpd hc
    simp only [handle_message, hpd, if_pos hc]
    rfl
  · intro env s pd text hpd hc
    simp only [handle_message, hpd, if_neg hc]
  · intro env s text hpd hc
    have hns : text.trimF.startsWithF "@記帳" = false := by
      simp only [confirm_keywords, List.mem_cons, List.not_mem_nil, or_false] at hc
      rcases hc with h | h | h | h | h | h <;> rw [h] <;> decide
    simp only [handle_message, hpd, route, hns, Bool.false_eq_true, not_false_eq_true, if_pos]

/-- C6 witness: the gate exercised on the concrete conversation `sW` with the
record `recW` pending for deletion, the token `確認`, a non-confirming
message, and a confirmation with nothing pending. -/
theorem C6_pending_delete_confirmation_gate_witness :
    ({ sW with pendingDelete := some ⟨1, 1⟩ } : ChatState).pendingDelete = some ⟨1, 1⟩ ∧
    ("確認" : String).trimF ∈ confirm_keywords ∧
    handle_message envW { sW with pendingDelete := some ⟨1, 1⟩ } "確認" =
      ({ { sW with pendingDelete := some ⟨1, 1⟩ } with
           records := ({ sW with pendingDelete := some ⟨1, 1⟩ } : ChatState).records.filter
             (fun r => r.id ≠ (1 : ℕ))
           pendingDelete := none },
       some (confirm_delete_reply
         (({ sW with pendingDelete := some ⟨1, 1⟩ } : ChatState).records.filter
           (fun r => r.id = (1 : ℕ))).length 1)) ∧
    handle_message envW { sW with pendingDelete := some ⟨1, 1⟩ } "@記帳 查詢" =
      handle_message envW { { sW with pendingDelete := some ⟨1, 1⟩ } with pendingDelete := none }
        "@記帳 查詢" ∧
    handle_message envW sW "好" = (sW, none) :=
  ⟨rfl, by decide,
   C6_pending_delete_confirmation_gate.1 envW _ ⟨1, 1⟩ "確認" rfl (by decide),
   C6_pending_delete_confirmation_gate.2.1 envW _ ⟨1, 1⟩ "@記帳 查詢" rfl (by decide),
   C6_pending_delete_confirmation_gate.2.2 envW sW "好" rfl (by decide)⟩

/-- C7 counterexample: a conversation whose last detail listing cached the
one record id 5 at position 1, after which that record was deleted and a
fresh record with id 7 was inserted.  A delete command naming display id 1
does not target the cached identifier 5: the lookup of the cached id finds
nothing and falls through to the most-recent-record resolution, arming the
delete for record 7 — so "the operation targets the stable record identifier
stored at position N of that cached listing" fails. -/
theorem C7_cached_display_id_counterexample :
    (⟨[⟨7, "ua", "x", 10, "支出", ⟨2025, 1, 2, 0, 0, 0⟩⟩], 8, [], [], some [5], none⟩ :
        ChatState).lastDetailView = some [5]
    ∧ 1 ≤ ([5] : List ℕ).length
    ∧ resolve_record_for_edit
        ⟨[⟨7, "ua", "x", 10, "支出", ⟨2025, 1, 2, 0, 0, 0⟩⟩], 8, [], [], some [5], none⟩ 1
        = some ⟨7, "ua", "x", 10, "支出", ⟨2025, 1, 2, 0, 0, 0⟩⟩
    ∧ (7 : ℕ) ≠ 5
    ∧ (handle_message envW
        ⟨[⟨7, "ua", "x", 10, "支出", ⟨2025, 1, 2, 0, 0, 0⟩⟩], 8, [], [], some [5], none⟩
        "@記帳 刪除 1").1.pendingDelete = some ⟨7, 1⟩ :=
  ⟨rfl, by decide, rfl, by decide, rfl⟩

/-- C7 amended: display-id resolution for delete/modify uses the cached
listing exactly when the cache holds at least `N` ids AND the id cached at
position `N` still names an existing record; when the cache is absent or
shorter than `N`, or when the cached id no longer resolves, it falls through
to the `N`th-most-recent record of the full history. -/
theorem C7_cached_display_id_resolution_amended :
    (∀ (s : ChatState) (ids : List ℕ) (N : ℕ) (r : Record),
      s.lastDetailView = some ids → 1 ≤ N → N ≤ ids.length →
      get_record_by_id s.records (ids.getD (N - 1) 0) = some r →
      resolve_record_for_edit s N = some r) ∧
    (∀ (s : ChatState) (N : ℕ),
      (s.lastDetailView.getD []).length < N →
      resolve_record_for_edit s N = get_record_by_display_id s.records N) ∧
    (∀ (s : ChatState) (ids : List ℕ) (N : ℕ),
      s.lastDetailView = some ids → 1 ≤ N → N ≤ ids.length →
      get_record_by_id s.records (ids.getD (N - 1) 0) = none →
      resolve_record_for_edit s N = get_record_by_display_id s.records N) := by
  refine ⟨?_, ?_, ?_⟩
  · intro s ids N r hld h1 h2 hget
    unfold resolve_record_for_edit get_record_by_last_detail_id
    rw [hld]
    simp only [Option.getD_some]
    rw [if_neg (by omega : ¬ N = 0), if_neg (by omega : ¬ ids.length < N), hget]
  · intro s N h
    unfold resolve_record_for_edit get_record_by_last_detail_id
    by_cases h0 : N = 0
    · subst h0
      simp [get_record_by_display_id]
    · rw [if_neg h0, if_pos h]
  · intro s ids N hld h1 h2 hget
    unfold resolve_record_for_edit get_record_by_last_detail_id
    rw [hld]
    simp only [Option.getD_some]
    rw [if_neg (by omega : ¬ N = 0), if_neg (by omega : ¬ ids.length < N), hget]

/-- C7 amended witness: the three resolution modes exercised on concrete
states — a live cached id, an absent cache, and the deleted-cached-id
fallthrough state of the counterexample. -/
theorem C7_cached_display_id_resolution_amended_witness :
    ((⟨[recW], 2, [], [], some [1], none⟩ : ChatState).lastDetailView = some [1] ∧
     1 ≤ (1 : ℕ) ∧ (1 : ℕ) ≤ ([1] : List ℕ).length ∧
     get_record_by_id ([recW] : List Record) (([1] : List ℕ).getD 0 0) = some recW ∧
     resolve_record_for_edit ⟨[recW], 2, [], [], some [1], none⟩ 1 = some recW) ∧
    ((sW.lastDetailView.getD []).length < 1 ∧
     resolve_record_for_edit sW 1 = get_record_by_display_id sW.records 1) ∧
    ((⟨[⟨7, "ua", "x", 10, "支出", ⟨2025, 1, 2, 0, 0, 0⟩⟩], 8, [], [], some [5], none⟩ :
        ChatState).lastDetailView = some [5] ∧
     get_record_by_id ([⟨7, "ua", "x", 10, "支出", ⟨2025, 1, 2, 0, 0, 0⟩⟩] : List Record)
       (([5] : List ℕ).getD 0 0) = none ∧
     resolve_record_for_edit
       ⟨[⟨7, "ua", "x", 10, "支出", ⟨2025, 1, 2, 0, 0, 0⟩⟩], 8, [], [], some [5], none⟩ 1
       = get_record_by_display_id [⟨7, "ua", "x", 10, "支出", ⟨2025, 1, 2, 0, 0, 0⟩⟩] 1) :=
  ⟨⟨rfl, by decide, by decide, by decide,
    C7_cached_display_id_resolution_amended.1 _ [1] 1 recW rfl (by decide) (by decide) (by decide)⟩,
   ⟨by decide,
    C7_cached_display_id_resolution_amended.2.1 sW 1 (by decide)⟩,
   ⟨rfl, by decide,
    C7_cached_display_id_resolution_amended.2.2 _ [5] 1 rfl (by decide) (by decide) (by decide)⟩⟩

/-- C8 counterexample: a two-line batch whose second line carries the invalid
option `xx`.  The whole batch fails and nothing is inserted, but the error
the user receives — the date-format message produced after the option failed
to parse as a record type — carries no `第N行` line number, so "an error
naming the offending line number" fails for this failing line. -/
theorem C8_line_number_counterexample :
    parse_record_line ⟨2025, 3, 5, 10, 20, 30⟩ 2 "@記帳 晚餐 60 xx"
      = Except.error "日期格式請用 MM/DD，例如 02/27"
    ∧ parse_record_message ⟨2025, 3, 5, 10, 20, 30⟩ "@記帳 午餐 120\n@記帳 晚餐 60 xx"
      = some (Except.error "日期格式請用 MM/DD，例如 02/27")
    ∧ (("日期格式請用 MM/DD，例如 02/27" : String).data.contains '第') = false
    ∧ handle_message envW ⟨[], 1, [], [], none, none⟩ "@記帳 午餐 120\n@記帳 晚餐 60 xx"
      = (⟨[], 1, [], [], none, none⟩, some "日期格式請用 MM/DD，例如 02/27") :=
  ⟨rfl, rfl, by decide, rfl⟩

/-- C8 amended: every non-blank line of a batch is validated before anything
is inserted — if any line fails to parse, the whole batch parse fails with
the first failing line's error (the prefix, field-count, extra-option and
amount errors name the offending line, but the type/date and reserved-keyword
errors do not), and the router then replies with that error leaving the
conversation state unchanged, so no record from any line is inserted. -/
theorem C8_batch_all_or_nothing_amended :
    (∀ (now : DateTime) (k : ℕ) (lines : List String),
      (∃ i, i < lines.length ∧
        ∃ e, parse_record_line now (k + i) (lines.getD i "") = Except.error e) →
      ∃ e, parse_record_lines now k lines = Except.error e) ∧
    (∀ (env : Env) (s : ChatState) (text e : String),
      s.pendingDelete = none →
      (text.trimF).startsWithF "@記帳" = true →
      ¬ (text.trimF = "@記帳" ∨ text.trimF = "@記帳格式" ∨ text.trimF = "@記帳 格式") →
      parse_add_member_command text.trimF = none →
      parse_delete_member_command text.trimF = none →
      parse_settlement_payment_command text.trimF = none →
      parse_delete_command text.trimF = none →
      parse_modify_command env.now text.trimF = none →
      parse_query_command env.now text.trimF = none →
      parse_record_message env.now text.trimF = some (Except.error e) →
      handle_message env s text = (s, some e)) := by
  constructor
  · intro now k lines
    induction lines generalizing k with
    | nil =>
      rintro ⟨i, hi, _⟩
      simp at hi
    | cons l rest ih =>
      rintro ⟨i, hi, e, he⟩
      cases i with
      | zero =>
        have hl : parse_record_line now k l = Except.error e := by simpa using he
        exact ⟨e, by simp only [parse_record_lines, hl]⟩
      | succ i =>
        cases hhead : parse_record_line now k l with
        | error e0 =>
          exact ⟨e0, by simp only [parse_record_lines, hhead]⟩
        | ok r =>
          obtain ⟨e1, h1⟩ := ih (k + 1)
            ⟨i, by simp only [List.length_cons] at hi; omega, e, by
              have hk : k + 1 + i = k + (i + 1) := by omega
              rw [hk]
              simpa using he⟩
          exact ⟨e1, by simp only [parse_record_lines, hhead, h1]⟩
  · intro env s text e hpd hpre hhelp h1 h2 h3 h4 h5 h6 hrec
    simp only [handle_message, hpd]
    unfold route
    rw [if_neg (by simp [hpre]), if_neg hhelp]
    simp only [h1, h2, h3, h4, h5, h6, hrec]

/-- C8 amended witness: the two-line batch whose second line fails on the
option `xx`, run through the per-line loop and through the full handler on
the concrete conversation `sW`. -/
theorem C8_batch_all_or_nothing_amended_witness :
    (∃ i, i < (["@記帳 午餐 120", "@記帳 晚餐 60 xx"] : List String).length ∧
      ∃ e, parse_record_line ⟨2025, 3, 5, 10, 20, 30⟩ (1 + i)
        ((["@記帳 午餐 120", "@記帳 晚餐 60 xx"] : List String).getD i "") = Except.error e) ∧
    (∃ e, parse_record_lines ⟨2025, 3, 5, 10, 20, 30⟩ 1
      ["@記帳 午餐 120", "@記帳 晚餐 60 xx"] = Except.error e) ∧
    handle_message envW sW "@記帳 午餐 120\n@記帳 晚餐 60 xx"
      = (sW, some "日期格式請用 MM/DD，例如 02/27") :=
  ⟨⟨1, by decide, "日期格式請用 MM/DD，例如 02/27", rfl⟩,
   C8_batch_all_or_nothing_amended.1 ⟨2025, 3, 5, 10, 20, 30⟩ 1
     ["@記帳 午餐 120", "@記帳 晚餐 60 xx"]
     ⟨1, by decide, "日期格式請用 MM/DD，例如 02/27", rfl⟩,
   C8_batch_all_or_nothing_amended.2 envW sW "@記帳 午餐 120\n@記帳 晚餐 60 xx"
     "日期格式請用 MM/DD，例如 02/27" rfl (by decide) (by decide)
     rfl rfl rfl rfl rfl rfl rfl⟩

/-- C9 counterexample: `更新` as first token after the prefix is not
dispatched to the modify command — the modify parser returns `none` and the
router falls through to the record branch, replying with the record-type
error; the same message with `修改` parses as a modify command. -/
theorem C9_update_not_modify_synonym_counterexample :
    parse_modify_command ⟨2025, 3, 5, 10, 20, 30⟩ "@記帳 更新 1 項目 早餐" = none
    ∧ parse_modify_command ⟨2025, 3, 5, 10, 20, 30⟩ "@記帳 修改 1 項目 早餐"
        = some (Except.ok ⟨1, some "早餐", none, none, none⟩)
    ∧ (handle_message envW sW "@記帳 更新 1 項目 早餐").2
        = some "收支類型只能填：支出 或 收入"
    ∧ (handle_message envW sW "@記帳 修改 1 項目 早餐").2
        = some "已修改紀錄 ID：1\n類型：支出\n項目：早餐\n金額：120\n日期：2025/03/05" :=
  ⟨rfl, rfl, rfl, rfl⟩

/-- The optional `更新` immediately after the record id of a modify command is
a no-op skip token: with it and without it the modify body parses the same,
provided the next token is not itself `更新`. -/
theorem modify_skip_equiv (now : DateTime) (a b c : String) (rest : List String)
    (hne : rest ≠ []) (hhd : rest.headD "" ≠ "更新") :
    parse_modify_body now (a :: b :: c :: "更新" :: rest) =
      parse_modify_body now (a :: b :: c :: rest) := by
  cases rest with
  | nil => cases hne rfl
  | cons r0 rest2 =>
    simp only [List.headD_cons] at hhd
    unfold parse_modify_body
    simp only [List.length_cons, List.getD_cons_succ, List.getD_cons_zero,
      List.drop_succ_cons, List.drop_zero, List.headD_cons, if_neg hhd,
      List.cons_ne_nil, if_true, if_false, ite_true, ite_false, reduceIte]
    cases rest2 with
    | nil => simp
    | cons r1 rest3 =>
      have c3L : (rest3.length + 1 + 1 + 1 + 1 + 1 + 1 < 3) = False := eq_false (by omega)
      have c3R : (rest3.length + 1 + 1 + 1 + 1 + 1 < 3) = False := eq_false (by omega)
      have c5L : (rest3.length + 1 + 1 + 1 + 1 + 1 + 1 < 5) = False := eq_false (by omega)
      have c5R : (rest3.length + 1 + 1 + 1 + 1 + 1 < 5) = False := eq_false (by omega)
      simp only [List.length_cons, c3L, c3R, c5L, c5R, if_false, ite_false]

/-- C9 amended: the modify dispatch key is exactly `修改` — any message the
modify parser accepts has `修改` as its second token, so `更新` is not a
dispatch synonym; the role `更新` does have is as an optional no-op token
right after the record id inside an already-dispatched `修改` command. -/
theorem C9_update_token_amended :
    (∀ (now : DateTime) (text : String) (r : Except String ModifyData),
      parse_modify_command now text = some r →
      (splitFields text.trimF).getD 1 "" = "修改") ∧
    (∀ (now : DateTime) (a b c : String) (rest : List String),
      rest ≠ [] → rest.headD "" ≠ "更新" →
      parse_modify_body now (a :: b :: c :: "更新" :: rest) =
        parse_modify_body now (a :: b :: c :: rest)) := by
  constructor
  · intro now text r h
    simp only [parse_modify_command] at h
    by_cases hc : (splitFields text.trimF).length < 2 ∨
        (splitFields text.trimF).getD 0 "" ≠ "@記帳" ∨
        (splitFields text.trimF).getD 1 "" ≠ "修改"
    · rw [if_pos hc] at h
      cases h
    · push_neg at hc
      exact hc.2.2
  · exact modify_skip_equiv

/-- C9 amended witness: the dispatch-key fact applied to the concrete
accepted message `@記帳 修改 1 項目 早餐`, and the skip equivalence applied
to its token list with the `更新` token inserted after the id. -/
theorem C9_update_token_amended_witness :
    (parse_modify_command ⟨2025, 3, 5, 10, 20, 30⟩ "@記帳 修改 1 項目 早餐"
      = some (Except.ok ⟨1, some "早餐", none, none, none⟩) ∧
     (splitFields ("@記帳 修改 1 項目 早餐" : String).trimF).getD 1 "" = "修改") ∧
    ((["項目", "早餐"] : List String) ≠ [] ∧
     (["項目", "早餐"] : List String).headD "" ≠ "更新" ∧
     parse_modify_body ⟨2025, 3, 5, 10, 20, 30⟩
       ("@記帳" :: "修改" :: "1" :: "更新" :: ["項目", "早餐"]) =
     parse_modify_body ⟨2025, 3, 5, 10, 20, 30⟩
       ("@記帳" :: "修改" :: "1" :: ["項目", "早餐"])) :=
  ⟨⟨rfl,
    C9_update_token_amended.1 ⟨2025, 3, 5, 10, 20, 30⟩ "@記帳 修改 1 項目 早餐"
      (Except.ok ⟨1, some "早餐", none, none, none⟩) rfl⟩,
   ⟨by decide, by decide,
    C9_update_token_amended.2 ⟨2025, 3, 5, 10, 20, 30⟩ "@記帳" "修改" "1"
      ["項目", "早餐"] (by decide) (by decide)⟩⟩

/-- C10 counterexample: adding the member `@@@a` stores the name `@a` — the
add-member parser normalizes once (stripping one `@`) and `save_manual_member`
normalizes the already-normalized name again (stripping another), so a third
`@` survives into the table and the stored name begins with `@`. -/
theorem C10_leading_at_counterexample :
    (handle_message envW ⟨[], 1, [], [], none, none⟩ "@記帳 新增成員 @@@a").1.manualMembers
      = ["@a"]
    ∧ ("@a" : String).startsWithF "@" = true
    ∧ (handle_message envW ⟨[], 1, [], [], none, none⟩ "@記帳 新增成員 @@@a").2
      = some "已新增成員：@a" :=
  ⟨rfl, by decide, rfl⟩

/-- A name accepted by `normalize_manual_member_name` is non-empty and at
most 30 characters long. -/
theorem normalize_manual_member_name_bounds {n m : String}
    (h : normalize_manual_member_name n = Except.ok m) :
    1 ≤ m.length ∧ m.length ≤ 30 := by
  have hpos : ∀ (x : String), x ≠ "" → 1 ≤ x.length := by
    intro x hx
    cases x with
    | mk l =>
      cases l with
      | nil => exact absurd rfl hx
      | cons c cs => simp [String.length]
  simp only [normalize_manual_member_name] at h
  split_ifs at h with h1 h2 h3 h4 h5
  all_goals first
    | exact Except.noConfusion h
    | (injection h with hm; subst hm; exact ⟨hpos _ (by assumption), by omega⟩)

/-- `save_manual_member` keeps every stored name within the length bounds. -/
theorem save_manual_member_bounded {members : List String} {name n : String}
    {mm : List String} (hs : membersBounded members)
    (h : save_manual_member members name = Except.ok (n, mm)) :
    membersBounded mm := by
  simp only [save_manual_member] at h
  cases hn : normalize_manual_member_name name with
  | error e => rw [hn] at h; cases h
  | ok n0 =>
    rw [hn] at h
    cases h
    intro m hm
    rcases List.mem_cons.mp hm with hm | hm
    · subst hm
      exact normalize_manual_member_name_bounds hn
    · exact hs m (List.mem_of_mem_filter hm)

/-- `delete_manual_member` keeps every stored name within the length
bounds. -/
theorem delete_manual_member_bounded {members : List String} {name : String}
    {mm : List String} {cnt : ℕ} (hs : membersBounded members)
    (h : delete_manual_member members name = Except.ok (mm, cnt)) :
    membersBounded mm := by
  simp only [delete_manual_member] at h
  cases hn : normalize_manual_member_name name with
  | error e => rw [hn] at h; cases h
  | ok n0 =>
    rw [hn] at h
    cases h
    intro m hm
    exact hs m (List.mem_of_mem_filter hm)

/-- The record-insertion loop keeps the manual-member table within the length
bounds, whether it completes or stops at a failed save. -/
theorem insert_parsed_records_bounded (env : Env) :
    ∀ (parsed : List ParsedRecord) (s : ChatState), membersBounded s.manualMembers →
      ∀ s2, (insert_parsed_records env s parsed = Except.ok s2 ∨
             insert_parsed_records env s parsed = Except.error s2) →
      membersBounded s2.manualMembers := by
  intro parsed
  induction parsed with
  | nil =>
    intro s hs s2 h
    rcases h with h | h
    · simp only [insert_parsed_records] at h
      cases h
      exact hs
    · simp only [insert_parsed_records] at h
      cases h
  | cons r rest ih =>
    intro s hs s2 h
    cases htm : r.targetMemberName with
    | some target =>
      simp only [insert_parsed_records, htm] at h
      cases hsave : save_manual_member s.manualMembers target with
      | error e =>
        simp only [hsave] at h
        rcases h with h | h
        · cases h
        · cases h
          exact hs
      | ok p =>
        obtain ⟨n0, mm⟩ := p
        simp only [hsave] at h
        exact ih _ (by simpa using save_manual_member_bounded hs hsave) s2 h
    | none =>
      simp only [insert_parsed_records, htm] at h
      exact ih _ (by simpa using hs) s2 h

/-- Every branch of the router keeps the manual-member table within the
length bounds. -/
theorem route_members_bounded (env : Env) (s : ChatState) (text : String)
    (hs : membersBounded s.manualMembers) :
    membersBounded (route env s text).1.manualMembers := by
  simp only [route]
  repeat' split
  all_goals dsimp only
  all_goals try exact hs
  all_goals try (exact save_manual_member_bounded hs (by assumption))
  all_goals try (exact delete_manual_member_bounded hs (by assumption))
  all_goals try (exact insert_parsed_records_bounded env _ s hs _ (Or.inl (by assumption)))
  all_goals try (exact insert_parsed_records_bounded env _ s hs _ (Or.inr (by assumption)))

/-- The full handler (pending-delete gate included) keeps the manual-member
table within the length bounds. -/
theorem handle_message_members_bounded (env : Env) (s : ChatState) (text : String)
    (hs : membersBounded s.manualMembers) :
    membersBounded (handle_message env s text).1.manualMembers := by
  simp only [handle_message]
  cases hpd : s.pendingDelete with
  | none => exact route_members_bounded env s _ hs
  | some pd =>
    dsimp only
    by_cases hc : text.trimF ∈ confirm_keywords
    · rw [if_pos hc]
      exact hs
    · rw [if_neg hc]
      exact route_members_bounded env _ _ hs

/-- C10 amended: every name the normalizer accepts is non-empty and at most
30 characters, and every message the handler processes preserves that bound
for the whole stored manual-member table — but a stored name can still begin
with `@` (the add-member path normalizes twice, each pass stripping only one
leading `@`), so the no-leading-`@` half of the claimed invariant does not
hold. -/
theorem C10_member_name_invariant_amended :
    (∀ (n m : String), normalize_manual_member_name n = Except.ok m →
      1 ≤ m.length ∧ m.length ≤ 30) ∧
    (∀ (env : Env) (s : ChatState) (text : String),
      membersBounded s.manualMembers →
      membersBounded (handle_message env s text).1.manualMembers) :=
  ⟨fun _ _ h => normalize_manual_member_name_bounds h,
   fun env s text hs => handle_message_members_bounded env s text hs⟩

/-- C10 amended witness: the bounds applied to the twice-`@`-prefixed name
`@@@a` and to the concrete add-member exchange that stores `@a`. -/
theorem C10_member_name_invariant_amended_witness :
    (normalize_manual_member_name "@@@a" = Except.ok "@@a" ∧
     1 ≤ ("@@a" : String).length ∧ ("@@a" : String).length ≤ 30) ∧
    (membersBounded (⟨[], 1, [], [], none, none⟩ : ChatState).manualMembers ∧
     membersBounded
       (handle_message envW ⟨[], 1, [], [], none, none⟩
         "@記帳 新增成員 @@@a").1.manualMembers) :=
  ⟨⟨rfl, C10_member_name_invariant_amended.1 "@@@a" "@@a" rfl⟩,
   ⟨fun m hm => absurd hm (List.not_mem_nil m),
    C10_member_name_invariant_amended.2 envW ⟨[], 1, [], [], none, none⟩
      "@記帳 新增成員 @@@a" (fun m hm => absurd hm (List.not_mem_nil m))⟩⟩
